import Mathlib

/-!
# Konsole `TEmulation`: the mediator between `TEWidget` and `TEScreen`

A shallow embedding of `konsole/TEmulation.cpp`.

* The screen (`TEScreen`), the byte decoder (`QTextDecoder`), the string
  search of `QString` and its conversions to a `QByteArray` are collaborators
  whose code is not part of `TEmulation.cpp`.  They enter as records of
  operations over an arbitrary state type, so every theorem holds for every
  implementation of them.  Their getters are functions of the collaborator's
  state.  Where a statement needs a law of the screen (`setHistCursor` keeps
  the text, `resizeImage` sets the size), the law is a hypothesis of it.
* Everything the mediator sends outwards (Qt signals it emits and calls it
  makes on the widget `gui`) is appended, in program order, to the field
  `out` of the mediator state.
* A `QTimer` is its single-shot flag and the deadline at which it fires
  (`none` when it is not active).  `QTimer::start` reads the clock, which is
  the argument `now` of every function that starts a timer.
* C++ `int` is `Int`; signed overflow (undefined behaviour in C++) is left
  out.  `c & 0xff` on a two's-complement `int` is `c % 256` on `Int`
  (`%` on `Int` is the non-negative remainder).
-/

namespace Konsole

/-! ## Collaborators -/

/-- The argument of the signal `notifySessionState`. -/
inductive SessionState where
  | NOTIFYNORMAL
  | NOTIFYBELL
  | NOTIFYACTIVITY
  deriving DecidableEq, Repr

/-- What the mediator sends outwards: the signals it emits
(`notifySessionState`, `zmodemDetected`, `sndBlock`, `ImageSizeChanged`), the
calls it makes on the widget `gui` (`setImage`, `setCursorPos`,
`setLineWrapped`, `setScroll`, `setSelection`) and the text it puts on the
clipboard (`QApplication::clipboard()->setText`).  `ι` is the type of a cooked
image (`ca*`). -/
inductive Output (ι : Type) where
  | notifySessionState (s : SessionState)
  | zmodemDetected
  | sndBlock (bytes : List Nat) (len : Int)
  | ImageSizeChanged (columns lines : Int)
  | setImage (image : ι) (lines columns : Int)
  | setCursorPos (x y : Int)
  | setLineWrapped (flags : List Bool)
  | setScroll (cursor lines : Int)
  | setSelection (text : String)
  | clipboardSetText (text : String)
  deriving DecidableEq, Repr

/-- The operations of a `TEScreen` that `TEmulation.cpp` calls, over a screen
state `σ`.  Mutators return the new screen state, getters read it;
`getSelText` is `none` for a null `QString`. -/
structure TEScreen (σ ι : Type) where
  BackSpace : σ → σ
  Tabulate : σ → σ
  NewLine : σ → σ
  Return : σ → σ
  ShowCharacter : Int → σ → σ
  getCookedImage : σ → ι
  getCookedLineWrapped : σ → List Bool
  getLines : σ → Int
  getColumns : σ → Int
  getCursorX : σ → Int
  getCursorY : σ → Int
  getHistCursor : σ → Int
  getHistLines : σ → Int
  setHistCursor : Int → σ → σ
  getHistoryLine : Int → σ → String
  setBusySelecting : Bool → σ → σ
  setSelBeginXY : Int → Int → Bool → σ → σ
  setSelExtentXY : Int → Int → σ → σ
  clearSelection : σ → σ
  getSelText : Bool → σ → Option String
  resizeImage : Int → Int → σ → σ

/-- The decoder made by the codec: `toUnicode(text, length)` returns the
decoded UTF-16 units and keeps its continuation state `δ`. -/
structure QTextDecoder (δ : Type) where
  toUnicode : δ → List Nat → List Int × δ

/-- The two overloads of `QString::indexOf` used by the search: a plain
substring search from an offset, and a `QRegExp` search.  The `Bool` is
`true` for `Qt::CaseSensitive`.  Both return `-1` when nothing is found. -/
structure QStringSearch where
  indexOf : (line str : String) → (start : Int) → (cs : Bool) → Int
  indexOfRegExp : (line pattern : String) → (cs : Bool) → Int

/-- A `QKeyEvent` as far as `onKeyPress` reads it: `text()`, a `QString`, as
its UTF-16 units. -/
structure QKeyEvent where
  text : List Nat
  deriving DecidableEq, Repr

/-- The conversions of a `QString` to a `QByteArray` used by `onKeyPress`, a
byte array being the list of its bytes.  `constDataAboveNull b` is the value of
the pointer comparison `b.constData() > 0`. -/
structure QStringBytes where
  toUtf8 : List Nat → List Nat
  toAscii : List Nat → List Nat
  constDataAboveNull : List Nat → Bool

/-! ## Timers -/

/-- A `QTimer`: the single-shot flag and the time at which it fires, `none`
when the timer is not active. -/
structure QTimer where
  singleShot : Bool
  deadline : Option Nat
  deriving DecidableEq, Repr

namespace QTimer

/-- `QTimer::isActive`. -/
def isActive (t : QTimer) : Bool := t.deadline.isSome

/-- `QTimer::setSingleShot`. -/
def setSingleShot (b : Bool) (t : QTimer) : QTimer := { t with singleShot := b }

/-- `QTimer::start(msec)` at clock value `now`: (re)starts the timer, which
fires `msec` later. -/
def start (now msec : Nat) (t : QTimer) : QTimer := { t with deadline := some (now + msec) }

/-- `QTimer::stop`. -/
def stop (t : QTimer) : QTimer := { t with deadline := none }

end QTimer

/-! ## The mediator state -/

/-- The data members of `TEmulation`, and the log `out` of what it has sent
outwards.  `scr` points at `screen[0]` or `screen[1]`; it is kept as the index
of the buffer it points at. -/
structure TEmulation (σ ι δ : Type) where
  screen0 : σ
  screen1 : σ
  scr : Fin 2
  connected : Bool
  listenToKeyPress : Bool
  decoder : δ
  m_findPos : Int
  bulk_timer1 : QTimer
  bulk_timer2 : QTimer
  out : List (Output ι)

section Mediator

variable {σ ι δ : Type}

/-- The buffer `screen[i]`. -/
def TEmulation.screen (m : TEmulation σ ι δ) (i : Fin 2) : σ :=
  if i = 0 then m.screen0 else m.screen1

/-- The screen `*scr`. -/
def TEmulation.cur (m : TEmulation σ ι δ) : σ := m.screen m.scr

/-- Replaces the buffer `screen[i]`. -/
def TEmulation.setScreenAt (m : TEmulation σ ι δ) (i : Fin 2) (s : σ) : TEmulation σ ι δ :=
  if i = 0 then { m with screen0 := s } else { m with screen1 := s }

/-- A mutating call `scr->f(...)` on the active screen. -/
def TEmulation.onScr (m : TEmulation σ ι δ) (f : σ → σ) : TEmulation σ ι δ :=
  m.setScreenAt m.scr (f m.cur)

/-- An `emit`, or a call on `gui`: appended to the log. -/
def TEmulation.send (m : TEmulation σ ι δ) (o : Output ι) : TEmulation σ ι δ :=
  { m with out := m.out ++ [o] }

/-- `TEmulation::onRcvChar(int c)`: the trivial scanner.  `c &= 0xff`
overwrites `c`, the `switch` and `ShowCharacter` both see the masked value. -/
def onRcvChar (S : TEScreen σ ι) (c : Int) (m : TEmulation σ ι δ) : TEmulation σ ι δ :=
  let c := c % 256
  if c = 8 then m.onScr S.BackSpace
  else if c = 9 then m.onScr S.Tabulate
  else if c = 10 then m.onScr S.NewLine
  else if c = 13 then m.onScr S.Return
  else if c = 7 then m.send (.notifySessionState .NOTIFYBELL)
  else m.onScr (S.ShowCharacter c)

/-! ### Refreshing -/

/-- `#define BULK_TIMEOUT1 10`. -/
def BULK_TIMEOUT1 : Nat := 10

/-- `#define BULK_TIMEOUT2 40`. -/
def BULK_TIMEOUT2 : Nat := 40

/-- `TEmulation::showBulk()`: stops both timers and, when connected, hands the
cooked image, the cursor position, the line-wrap flags and the scroll position
of the active screen to `gui`. -/
def showBulk (S : TEScreen σ ι) (m : TEmulation σ ι δ) : TEmulation σ ι δ :=
  let m := { m with bulk_timer1 := m.bulk_timer1.stop }
  let m := { m with bulk_timer2 := m.bulk_timer2.stop }
  if m.connected then
    let image := S.getCookedImage m.cur
    let m := m.send (.setImage image (S.getLines m.cur) (S.getColumns m.cur))
    let m := m.send (.setCursorPos (S.getCursorX m.cur) (S.getCursorY m.cur))
    let m := m.send (.setLineWrapped (S.getCookedLineWrapped m.cur))
    m.send (.setScroll (S.getHistCursor m.cur) (S.getHistLines m.cur))
  else m

/-- The four calls on `gui` by which `showBulk` hands over the active screen:
the image with the lines and columns, the cursor position, the line-wrap flags
and the scroll position. -/
def snapshotOf (S : TEScreen σ ι) (s : σ) : List (Output ι) :=
  [.setImage (S.getCookedImage s) (S.getLines s) (S.getColumns s),
   .setCursorPos (S.getCursorX s) (S.getCursorY s),
   .setLineWrapped (S.getCookedLineWrapped s),
   .setScroll (S.getHistCursor s) (S.getHistLines s)]

/-- `TEmulation::bulkStart()` when the clock reads `now`. -/
def bulkStart (now : Nat) (m : TEmulation σ ι δ) : TEmulation σ ι δ :=
  let m := { m with bulk_timer1 := m.bulk_timer1.setSingleShot true }
  let m := { m with bulk_timer1 := m.bulk_timer1.start now BULK_TIMEOUT1 }
  if !m.bulk_timer2.isActive then
    let m := { m with bulk_timer2 := m.bulk_timer2.setSingleShot true }
    { m with bulk_timer2 := m.bulk_timer2.start now BULK_TIMEOUT2 }
  else m

/-! ### Unblocking, byte to unicode translation -/

/-- The C library `strncmp` on byte strings; the end of a list reads as the
terminating NUL. -/
def strncmp (s1 s2 : List Nat) : Nat → Int
  | 0 => 0
  | n + 1 =>
    let c1 := s1.headD 0
    let c2 := s2.headD 0
    if c1 ≠ c2 then (c1 : Int) - (c2 : Int)
    else if c1 = 0 then 0
    else strncmp s1.tail s2.tail n

/-- The bytes of the literal `"B00"`. -/
def zmodemMarker : List Nat := [0x42, 0x30, 0x30]

/-- The body of the second loop of `onRcvBlock` at index `i`: the z-modem
indicator check, `length` being the block length. -/
def zmodemCheck (text : List Nat) (i : Nat) (m : TEmulation σ ι δ) : TEmulation σ ι δ :=
  let length : Int := text.length
  if text.getD i 0 = 0o30 then
    if length - (i : Int) - 1 > 3 ∧ strncmp (text.drop (i + 1)) zmodemMarker 3 = 0 then
      m.send .zmodemDetected
    else m
  else m

/-- `TEmulation::onRcvBlock(text, length)` when the clock reads `now`; the
block is the list `text` and `length` is its length. -/
def onRcvBlock (S : TEScreen σ ι) (D : QTextDecoder δ) (now : Nat) (text : List Nat)
    (m : TEmulation σ ι δ) : TEmulation σ ι δ :=
  let m := m.send (.notifySessionState .NOTIFYACTIVITY)
  let m := bulkStart now m
  let r := D.toUnicode m.decoder text
  let unicodeText := r.1
  let m := { m with decoder := r.2 }
  let m := unicodeText.foldl (fun m c => onRcvChar S c m) m
  (List.range text.length).foldl (fun m i => zmodemCheck text i m) m

/-! ### Searching the history -/

/-- `TEmulation::findTextBegin()`. -/
def findTextBegin (m : TEmulation σ ι δ) : TEmulation σ ι δ :=
  { m with m_findPos := -1 }

/-- What a call of `findTextNext` leaves: the value returned, the mediator
state, and the indices it passed to `getHistoryLine`, in the order of the
calls (kept for the statements about which lines are read). -/
structure FindResult (σ ι δ : Type) where
  found : Bool
  examined : List Int
  em : TEmulation σ ι δ

/-- The value `pos` computed in the body of either loop of `findTextNext` for
the line `i`. -/
def findPosAt (S : TEScreen σ ι) (Q : QStringSearch) (str : String)
    (caseSensitive regExp : Bool) (m : TEmulation σ ι δ) (i : Int) : Int :=
  let string := S.getHistoryLine i m.cur
  if regExp then Q.indexOfRegExp string str caseSensitive
  else Q.indexOf string str 0 caseSensitive

/-- The block run by either loop of `findTextNext` when `pos != -1` at line
`i`. -/
def findHit (S : TEScreen σ ι) (m : TEmulation σ ι δ) (i : Int) : TEmulation σ ι δ :=
  let m := { m with m_findPos := i }
  let m :=
    if i > S.getHistLines m.cur then m.onScr (S.setHistCursor (S.getHistLines m.cur))
    else m.onScr (S.setHistCursor i)
  showBulk S m

/-- The forward loop of `findTextNext`, entered with loop variable `i`.
`none` when the fuel runs out before the loop ends. -/
def findForward (S : TEScreen σ ι) (Q : QStringSearch) (str : String)
    (caseSensitive regExp : Bool) (m : TEmulation σ ι δ) :
    Nat → Int → Option (FindResult σ ι δ)
  | 0, _ => none
  | fuel + 1, i =>
    if i < S.getHistLines m.cur + S.getLines m.cur then
      if findPosAt S Q str caseSensitive regExp m i ≠ -1 then
        some { found := true, examined := [i], em := findHit S m i }
      else
        (findForward S Q str caseSensitive regExp m fuel (i + 1)).map
          fun r => { r with examined := i :: r.examined }
    else some { found := false, examined := [], em := m }

/-- The backward loop of `findTextNext`, entered with loop variable `i`.
`none` when the fuel runs out before the loop ends. -/
def findBackward (S : TEScreen σ ι) (Q : QStringSearch) (str : String)
    (caseSensitive regExp : Bool) (m : TEmulation σ ι δ) :
    Nat → Int → Option (FindResult σ ι δ)
  | 0, _ => none
  | fuel + 1, i =>
    if i ≥ 0 then
      if findPosAt S Q str caseSensitive regExp m i ≠ -1 then
        some { found := true, examined := [i], em := findHit S m i }
      else
        (findBackward S Q str caseSensitive regExp m fuel (i - 1)).map
          fun r => { r with examined := i :: r.examined }
    else some { found := false, examined := [], em := m }

/-- Where the forward loop of `findTextNext` starts. -/
def forwardStart (m : TEmulation σ ι δ) : Int :=
  if m.m_findPos = -1 then 0 else m.m_findPos + 1

/-- Where the backward loop of `findTextNext` starts. -/
def backwardStart (S : TEScreen σ ι) (m : TEmulation σ ι δ) : Int :=
  if m.m_findPos = -1 then S.getHistLines m.cur + S.getLines m.cur else m.m_findPos - 1

/-- `TEmulation::findTextNext(str, forward, caseSensitive, regExp)`.  Each loop
gets one unit of fuel more than the number of lines between its start and its
bound. -/
def findTextNext (S : TEScreen σ ι) (Q : QStringSearch) (str : String)
    (forward caseSensitive regExp : Bool) (m : TEmulation σ ι δ) :
    Option (FindResult σ ι δ) :=
  if forward then
    findForward S Q str caseSensitive regExp m
      ((S.getHistLines m.cur + S.getLines m.cur - forwardStart m).toNat + 1) (forwardStart m)
  else
    findBackward S Q str caseSensitive regExp m
      ((backwardStart S m + 1).toNat + 1) (backwardStart S m)

/-! ### Screen switch, keyboard, selection, connection, geometry -/

/-- `TEmulation::setScreen(int n)`: `n&1` is `0` for even and `1` for odd `n`,
also for negative `n`; the pointers `scr` and `old` differ exactly when the
indices of the buffers they point at differ. -/
def setScreen (S : TEScreen σ ι) (n : Int) (m : TEmulation σ ι δ) : TEmulation σ ι δ :=
  let old := m.scr
  let m := { m with scr := if n % 2 = 0 then 0 else 1 }
  if m.scr ≠ old then m.setScreenAt old (S.setBusySelecting false (m.screen old))
  else m

/-- `TEmulation::onKeyPress(QKeyEvent* ev)`.  In the last branch `c[0]` is the
first byte of `toAscii()`, which is the terminating NUL of an empty array. -/
def onKeyPress (S : TEScreen σ ι) (B : QStringBytes) (ev : QKeyEvent)
    (m : TEmulation σ ι δ) : TEmulation σ ι δ :=
  if !m.listenToKeyPress then m
  else
    let m := m.send (.notifySessionState .NOTIFYNORMAL)
    let m :=
      if S.getHistCursor m.cur ≠ S.getHistLines m.cur ∧ ¬ ev.text.isEmpty then
        m.onScr (S.setHistCursor (S.getHistLines m.cur))
      else m
    if ¬ ev.text.isEmpty then
      m.send (.sndBlock (B.toUtf8 ev.text) ev.text.length)
    else if B.constDataAboveNull (B.toAscii ev.text) then
      m.send (.sndBlock [(B.toAscii ev.text).getD 0 0] 1)
    else m

/-- `TEmulation::onSelectionBegin(x, y, columnmode)`. -/
def onSelectionBegin (S : TEScreen σ ι) (x y : Int) (columnmode : Bool)
    (m : TEmulation σ ι δ) : TEmulation σ ι δ :=
  if !m.connected then m
  else
    let m := m.onScr (S.setSelBeginXY x y columnmode)
    showBulk S m

/-- `TEmulation::onSelectionExtend(x, y)`. -/
def onSelectionExtend (S : TEScreen σ ι) (x y : Int) (m : TEmulation σ ι δ) :
    TEmulation σ ι δ :=
  if !m.connected then m
  else
    let m := m.onScr (S.setSelExtentXY x y)
    showBulk S m

/-- `TEmulation::clearSelection()`. -/
def clearSelection (S : TEScreen σ ι) (m : TEmulation σ ι δ) : TEmulation σ ι δ :=
  if !m.connected then m
  else
    let m := m.onScr S.clearSelection
    showBulk S m

/-- `TEmulation::setSelection(preserve_line_breaks)`. -/
def setSelection (S : TEScreen σ ι) (preserve_line_breaks : Bool) (m : TEmulation σ ι δ) :
    TEmulation σ ι δ :=
  if !m.connected then m
  else
    match S.getSelText preserve_line_breaks m.cur with
    | some t => m.send (.setSelection t)
    | none => m

/-- `TEmulation::isBusySelecting(bool busy)`. -/
def isBusySelecting (S : TEScreen σ ι) (busy : Bool) (m : TEmulation σ ι δ) :
    TEmulation σ ι δ :=
  if !m.connected then m
  else m.onScr (S.setBusySelecting busy)

/-- `TEmulation::copySelection()`; a null `QString` puts the empty text on the
clipboard. -/
def copySelection (S : TEScreen σ ι) (m : TEmulation σ ι δ) : TEmulation σ ι δ :=
  if !m.connected then m
  else m.send (.clipboardSetText ((S.getSelText true m.cur).getD ""))

/-- `TEmulation::setListenToKeyPress(bool l)`. -/
def setListenToKeyPress (l : Bool) (m : TEmulation σ ι δ) : TEmulation σ ι δ :=
  { m with listenToKeyPress := l }

/-- `TEmulation::setConnect(bool c)`. -/
def setConnect (S : TEScreen σ ι) (c : Bool) (m : TEmulation σ ι δ) : TEmulation σ ι δ :=
  let m := { m with connected := c }
  if m.connected then showBulk S m else m

/-- `TEmulation::onImageSizeChange(lines, columns)`. -/
def onImageSizeChange (S : TEScreen σ ι) (lines columns : Int) (m : TEmulation σ ι δ) :
    TEmulation σ ι δ :=
  let m := { m with screen0 := S.resizeImage lines columns m.screen0 }
  let m := { m with screen1 := S.resizeImage lines columns m.screen1 }
  if !m.connected then m
  else
    let m := showBulk S m
    m.send (.ImageSizeChanged columns lines)

/-- `TEmulation::onHistoryCursorChange(int cursor)` when the clock reads
`now`. -/
def onHistoryCursorChange (S : TEScreen σ ι) (now : Nat) (cursor : Int)
    (m : TEmulation σ ι δ) : TEmulation σ ι δ :=
  if !m.connected then m
  else
    let m := m.onScr (S.setHistCursor cursor)
    bulkStart now m

/-! ### Repeated search -/

/-- The state `r` is the state `m` after the call `f` on the active screen
followed by `showBulk`, the mediator being connected: the active screen is
`f` of what it was, the other buffer and the pointer `scr` are as before, both
timers are stopped, and `gui` has received one snapshot more, taken from the
active screen after the call. -/
def ForwardedAndFlushed (S : TEScreen σ ι) (f : σ → σ) (m r : TEmulation σ ι δ) : Prop :=
  r.cur = f m.cur ∧ (∀ i, i ≠ m.scr → r.screen i = m.screen i) ∧ r.scr = m.scr ∧
    r.bulk_timer1.isActive = false ∧ r.bulk_timer2.isActive = false ∧
    r.out = m.out ++ snapshotOf S (f m.cur)

/-! ### The timers at work

`TEmulation::TEmulation` connects `timeout()` of both timers to `showBulk()`.
Time is counted in the unit of the two timeouts. -/

/-- The mediator, the clock, and the times at which a timer has called
`showBulk`. -/
structure Timed (σ ι δ : Type) where
  now : Nat
  em : TEmulation σ ι δ
  flushedAt : List Nat

/-- The earliest deadline among the active timers. -/
def nextTimeout (m : TEmulation σ ι δ) : Option Nat :=
  match m.bulk_timer1.deadline, m.bulk_timer2.deadline with
  | none, none => none
  | some a, none => some a
  | none, some b => some b
  | some a, some b => some (min a b)

/-- Lets `dt` time units pass with no call on the mediator.  The timer that
is due first fires and calls `showBulk`, which stops both timers, so at most
one timer fires. -/
def elapse (S : TEScreen σ ι) (dt : Nat) (w : Timed σ ι δ) : Timed σ ι δ :=
  match nextTimeout w.em with
  | some d =>
    if d ≤ w.now + dt then
      { now := w.now + dt, em := showBulk S w.em, flushedAt := w.flushedAt ++ [max d w.now] }
    else { w with now := w.now + dt }
  | none => { w with now := w.now + dt }

/-- A call of `bulkStart`, `gap` time units after the previous event. -/
def armAfter (S : TEScreen σ ι) (gap : Nat) (w : Timed σ ι δ) : Timed σ ι δ :=
  let w := elapse S gap w
  { w with em := bulkStart w.now w.em }

/-- Calls of `bulkStart` in sequence, each after the given gap. -/
def armRun (S : TEScreen σ ι) (gaps : List Nat) (w : Timed σ ι δ) : Timed σ ι δ :=
  gaps.foldl (fun w g => armAfter S g w) w

/-- The state of a run in which the slow timer with deadline `D` is still
pending (first case) or a timer has called `showBulk` since the start, at a
time between `t0` and `D` (second case). -/
def SlowInv (base : List Nat) (t0 D : Nat) (w : Timed σ ι δ) : Prop :=
  (w.flushedAt = base ∧ w.em.bulk_timer2.deadline = some D ∧ w.now ≤ D ∧ t0 ≤ w.now) ∨
  ∃ f rest, w.flushedAt = base ++ f :: rest ∧ t0 ≤ f ∧ f ≤ D

/-- The `n` consecutive indices `i, i + 1, ...`. -/
def upFrom (i : Int) : Nat → List Int
  | 0 => []
  | n + 1 => i :: upFrom (i + 1) n

/-- The `n` consecutive indices `i, i - 1, ...`. -/
def downFrom (i : Int) : Nat → List Int
  | 0 => []
  | n + 1 => i :: downFrom (i - 1) n

/-! ### Construction and reachable states -/

/-- `TEmulation::TEmulation(TEWidget* w)`: `s0` and `s1` are the two screens
`new TEScreen(gui->Lines(), gui->Columns())`, `scr` points at `screen[0]`, the
flags are `false`, `m_findPos` is `-1`, and the two timers are as `QTimer()`
makes them, not active.  `d` is the state of the decoder that `setCodec`
installs before the first block arrives. -/
def construct (s0 s1 : σ) (d : δ) : TEmulation σ ι δ :=
  { screen0 := s0, screen1 := s1, scr := 0, connected := false, listenToKeyPress := false,
    decoder := d, m_findPos := -1,
    bulk_timer1 := { singleShot := false, deadline := none },
    bulk_timer2 := { singleShot := false, deadline := none },
    out := [] }

/-- What can happen to the mediator: a call of one of its operations with its
arguments, or the `timeout()` of one of its two timers. -/
inductive Event where
  | onRcvBlock (text : List Nat)
  | onHistoryCursorChange (cursor : Int)
  | onKeyPress (ev : QKeyEvent)
  | onSelectionBegin (x y : Int) (columnmode : Bool)
  | onSelectionExtend (x y : Int)
  | clearSelection
  | setSelection (preserve_line_breaks : Bool)
  | isBusySelecting (busy : Bool)
  | copySelection
  | setListenToKeyPress (l : Bool)
  | findTextBegin
  | findTextNext (str : String) (forward caseSensitive regExp : Bool)
  | setScreen (n : Int)
  | setConnect (c : Bool)
  | onImageSizeChange (lines columns : Int)
  | timeout1
  | timeout2
  deriving DecidableEq, Repr

/-- The `timeout()` of a timer when the clock reads `now`: it is emitted only
when the timer is active and due, and the slot connected to it is `showBulk`
(which stops the timer, single-shot or not). -/
def onTimeout (S : TEScreen σ ι) (now : Nat) (t : QTimer) (m : TEmulation σ ι δ) :
    TEmulation σ ι δ :=
  match t.deadline with
  | some d => if d ≤ now then showBulk S m else m
  | none => m

/-- The state after the event `e`, which happens when the clock reads `now`. -/
def step (S : TEScreen σ ι) (D : QTextDecoder δ) (Q : QStringSearch) (B : QStringBytes)
    (now : Nat) (e : Event) (m : TEmulation σ ι δ) : TEmulation σ ι δ :=
  match e with
  | .onRcvBlock text => onRcvBlock S D now text m
  | .onHistoryCursorChange cursor => onHistoryCursorChange S now cursor m
  | .onKeyPress ev => onKeyPress S B ev m
  | .onSelectionBegin x y columnmode => onSelectionBegin S x y columnmode m
  | .onSelectionExtend x y => onSelectionExtend S x y m
  | .clearSelection => clearSelection S m
  | .setSelection preserve_line_breaks => setSelection S preserve_line_breaks m
  | .isBusySelecting busy => isBusySelecting S busy m
  | .copySelection => copySelection S m
  | .setListenToKeyPress l => setListenToKeyPress l m
  | .findTextBegin => findTextBegin m
  | .findTextNext str forward caseSensitive regExp =>
    match findTextNext S Q str forward caseSensitive regExp m with
    | some r => r.em
    | none => m
  | .setScreen n => setScreen S n m
  | .setConnect c => setConnect S c m
  | .onImageSizeChange lines columns => onImageSizeChange S lines columns m
  | .timeout1 => onTimeout S now m.bulk_timer1 m
  | .timeout2 => onTimeout S now m.bulk_timer2 m

/-- The state after a sequence of events, each with the clock reading at
which it happens. -/
def run (S : TEScreen σ ι) (D : QTextDecoder δ) (Q : QStringSearch) (B : QStringBytes)
    (es : List (Nat × Event)) (m : TEmulation σ ι δ) : TEmulation σ ι δ :=
  es.foldl (fun m p => step S D Q B p.1 p.2 m) m

/-- The fast timer is active exactly when the slow timer is. -/
def TimersPaired (m : TEmulation σ ι δ) : Prop :=
  m.bulk_timer1.isActive = m.bulk_timer2.isActive

end Mediator

/-! ## A recording screen, a Latin-1 decoder and a plain-text search

Concrete collaborators on which the mediator can be evaluated. -/

/-- A mutating call received by the recording screen. -/
inductive ScreenCall where
  | BackSpace
  | Tabulate
  | NewLine
  | Return
  | ShowCharacter (c : Int)
  | setHistCursor (cursor : Int)
  | setBusySelecting (busy : Bool)
  | setSelBeginXY (x y : Int) (columnmode : Bool)
  | setSelExtentXY (x y : Int)
  | clearSelection
  | resizeImage (lines columns : Int)
  deriving DecidableEq, Repr

/-- A screen that stores what its getters return and records, in order, the
mutating calls it receives. -/
structure RecScreen where
  lines : Int
  columns : Int
  histCursor : Int
  histLines : Int
  text : List String
  calls : List ScreenCall
  deriving DecidableEq, Repr

/-- Records a call. -/
def RecScreen.record (s : RecScreen) (c : ScreenCall) : RecScreen :=
  { s with calls := s.calls ++ [c] }

/-- The operations of the recording screen.  `setHistCursor` and `resizeImage`
also store their arguments; the image is the stored text. -/
def recScreen : TEScreen RecScreen (List String) where
  BackSpace s := s.record .BackSpace
  Tabulate s := s.record .Tabulate
  NewLine s := s.record .NewLine
  Return s := s.record .Return
  ShowCharacter c s := s.record (.ShowCharacter c)
  getCookedImage s := s.text
  getCookedLineWrapped _ := []
  getLines s := s.lines
  getColumns s := s.columns
  getCursorX _ := 0
  getCursorY _ := 0
  getHistCursor s := s.histCursor
  getHistLines s := s.histLines
  setHistCursor n s := { s.record (.setHistCursor n) with histCursor := n }
  getHistoryLine i s := if i < 0 then "" else s.text.getD i.toNat ""
  setBusySelecting b s := s.record (.setBusySelecting b)
  setSelBeginXY x y c s := s.record (.setSelBeginXY x y c)
  setSelExtentXY x y s := s.record (.setSelExtentXY x y)
  clearSelection s := s.record .clearSelection
  getSelText _ _ := none
  resizeImage l c s := { s.record (.resizeImage l c) with lines := l, columns := c }

/-- A decoder for Latin-1: one unit per byte, no continuation state. -/
def latin1 : QTextDecoder Unit where
  toUnicode _ text := (text.map Int.ofNat, ())

/-- Index of the first occurrence of `str` in `line`, `-1` when there is
none. -/
def listIndexOf (str : List Char) : List Char → Int
  | [] => if str = [] then 0 else -1
  | c :: cs =>
    if str.isPrefixOf (c :: cs) then 0
    else
      let r := listIndexOf str cs
      if r = -1 then -1 else r + 1

/-- A search that compares plain text, also for a `QRegExp`; without case
sensitivity both sides are lowered first. -/
def plainSearch : QStringSearch where
  indexOf line str _ cs :=
    if cs then listIndexOf str.data line.data
    else listIndexOf (str.data.map Char.toLower) (line.data.map Char.toLower)
  indexOfRegExp line str cs :=
    if cs then listIndexOf str.data line.data
    else listIndexOf (str.data.map Char.toLower) (line.data.map Char.toLower)

/-- Conversions for text in ASCII: both keep the units below 128 and put `?`
for the others; the data pointer of a `QByteArray` is never null, so it
compares above the null pointer. -/
def asciiBytes : QStringBytes where
  toUtf8 t := t.map fun u => if u < 128 then u else 0x3F
  toAscii t := t.map fun u => if u < 128 then u else 0x3F
  constDataAboveNull _ := true

/-- A recording screen of the given size over the given lines. -/
def RecScreen.init (histLines lines : Int) (text : List String) : RecScreen :=
  { lines := lines, columns := 80, histCursor := histLines, histLines := histLines,
    text := text, calls := [] }

/-- A mediator over two recording screens as the constructor leaves it:
`screen[0]` active, not connected, find cursor `-1`, timers not started. -/
def demo (s0 s1 : RecScreen) : TEmulation RecScreen (List String) Unit :=
  { screen0 := s0, screen1 := s1, scr := 0, connected := false, listenToKeyPress := false,
    decoder := (), m_findPos := -1,
    bulk_timer1 := { singleShot := false, deadline := none },
    bulk_timer2 := { singleShot := false, deadline := none },
    out := [] }

/-- The screen of the example of the specification: history `foo`, `bar foo`,
`baz`, no visible line. -/
def fooScreen : RecScreen := RecScreen.init 3 0 ["foo", "bar foo", "baz"]

/-- An empty 24-line screen. -/
def blankScreen : RecScreen := RecScreen.init 0 24 []

/-- The mediator over two blank recording screens at time 0, no flush yet. -/
def demoTimed : Timed RecScreen (List String) Unit :=
  { now := 0, em := demo blankScreen blankScreen, flushedAt := [] }

end Konsole

/-! ## Theorems -/

namespace Konsole

section Dispatch

variable {σ ι δ : Type}

/-- C1: `onRcvChar` performs exactly one action, chosen by the low byte of `c`:
`0x08` calls `BackSpace`, `0x09` `Tabulate`, `0x0A` `NewLine`, `0x0D` `Return`
on the active screen, `0x07` emits the bell notification and leaves both
screens as they are, any other low byte calls `ShowCharacter` on the active
screen; two characters with the same low byte yield the same result, and
`0x0107` rings the bell. -/
theorem onRcvChar_dispatch (S : TEScreen σ ι) (c : Int) (m : TEmulation σ ι δ) :
    (c % 256 = 0x08 → onRcvChar S c m = m.onScr S.BackSpace) ∧
    (c % 256 = 0x09 → onRcvChar S c m = m.onScr S.Tabulate) ∧
    (c % 256 = 0x0A → onRcvChar S c m = m.onScr S.NewLine) ∧
    (c % 256 = 0x0D → onRcvChar S c m = m.onScr S.Return) ∧
    (c % 256 = 0x07 →
      onRcvChar S c m = m.send (.notifySessionState .NOTIFYBELL) ∧
      (onRcvChar S c m).screen0 = m.screen0 ∧ (onRcvChar S c m).screen1 = m.screen1) ∧
    (c % 256 ≠ 0x08 → c % 256 ≠ 0x09 → c % 256 ≠ 0x0A → c % 256 ≠ 0x0D → c % 256 ≠ 0x07 →
      ∃ x, onRcvChar S c m = m.onScr (S.ShowCharacter x)) ∧
    (∀ c2 : Int, c2 % 256 = c % 256 → onRcvChar S c2 m = onRcvChar S c m) ∧
    onRcvChar S 0x0107 m = m.send (.notifySessionState .NOTIFYBELL) := by
  refine ⟨?_, ?_, ?_, ?_, ?_, ?_, ?_, ?_⟩
  · intro h; simp [onRcvChar, h]
  · intro h; simp [onRcvChar, h]
  · intro h; simp [onRcvChar, h]
  · intro h; simp [onRcvChar, h]
  · intro h; simp [onRcvChar, h, TEmulation.send]
  · intro h1 h2 h3 h4 h5
    exact ⟨c % 256, by simp [onRcvChar, h1, h2, h3, h4, h5]⟩
  · intro c2 h; simp [onRcvChar, h]
  · simp [onRcvChar]

/-- C1, evaluated: on the recording screen `0x0107` emits the bell and
nothing else. -/
theorem onRcvChar_dispatch_witness :
    (0x0107 : Int) % 256 = 0x07 ∧
    onRcvChar recScreen 0x0107 (demo blankScreen blankScreen) =
      (demo blankScreen blankScreen).send (.notifySessionState .NOTIFYBELL) :=
  ⟨by decide,
    ((onRcvChar_dispatch recScreen 0x0107 (demo blankScreen blankScreen)).2.2.2.2.1
      (by decide)).1⟩

/-- C2, refuted as stated: the low byte of `0x141` is `0x41`, none of the five
control codes, and the recording screen receives `ShowCharacter(0x41)`, not
`ShowCharacter(0x141)`. -/
theorem onRcvChar_unmasked_counterexample :
    (0x141 : Int) % 256 ∉ [0x07, 0x08, 0x09, 0x0A, 0x0D] ∧
    (onRcvChar recScreen 0x141 (demo blankScreen blankScreen)).cur.calls
      = [ScreenCall.ShowCharacter 0x41] ∧
    (onRcvChar recScreen 0x141 (demo blankScreen blankScreen)).cur
      ≠ recScreen.ShowCharacter 0x141 (demo blankScreen blankScreen).cur := by
  decide

/-- C2, amended: when the low byte of `c` is none of `0x07`, `0x08`, `0x09`,
`0x0A`, `0x0D`, `onRcvChar` calls `ShowCharacter` on the active screen with the
masked value `c & 0xFF`, and does nothing else. -/
theorem onRcvChar_shows_masked (S : TEScreen σ ι) (c : Int) (m : TEmulation σ ι δ)
    (h : c % 256 ∉ [0x07, 0x08, 0x09, 0x0A, 0x0D]) :
    onRcvChar S c m = m.onScr (S.ShowCharacter (c % 256)) := by
  simp only [List.mem_cons, List.mem_singleton, List.not_mem_nil, or_false, not_or] at h
  obtain ⟨h7, h8, h9, h10, h13⟩ := h
  simp [onRcvChar, h7, h8, h9, h10, h13]

/-- C2, amended, evaluated at `0x141`. -/
theorem onRcvChar_shows_masked_witness :
    onRcvChar recScreen 0x141 (demo blankScreen blankScreen) =
      (demo blankScreen blankScreen).onScr (recScreen.ShowCharacter 0x41) :=
  onRcvChar_shows_masked recScreen 0x141 (demo blankScreen blankScreen) (by decide)

end Dispatch

section Intake

variable {σ ι δ : Type}

/-- What `bulkStart` leaves, field by field. -/
theorem bulkStart_eq (now : Nat) (m : TEmulation σ ι δ) :
    bulkStart now m =
      { m with
        bulk_timer1 := { singleShot := true, deadline := some (now + 10) }
        bulk_timer2 :=
          if m.bulk_timer2.isActive then m.bulk_timer2
          else { singleShot := true, deadline := some (now + 40) } } := by
  unfold bulkStart
  cases h : m.bulk_timer2.isActive <;>
    simp [h, QTimer.start, QTimer.setSingleShot, BULK_TIMEOUT1, BULK_TIMEOUT2]

theorem out_setScreenAt (m : TEmulation σ ι δ) (i : Fin 2) (s : σ) :
    (m.setScreenAt i s).out = m.out := by
  unfold TEmulation.setScreenAt
  split <;> rfl

theorem out_onScr (m : TEmulation σ ι δ) (f : σ → σ) : (m.onScr f).out = m.out :=
  out_setScreenAt m m.scr (f m.cur)

/-- A character adds nothing to the log, or the bell. -/
theorem out_onRcvChar (S : TEScreen σ ι) (c : Int) (m : TEmulation σ ι δ) :
    (onRcvChar S c m).out = m.out ∨
    (onRcvChar S c m).out = m.out ++ [.notifySessionState .NOTIFYBELL] := by
  unfold onRcvChar
  simp only
  split_ifs <;> simp [out_onScr, TEmulation.send]

/-- The dispatch loop of `onRcvBlock` never emits `zmodemDetected`. -/
theorem zmodem_mem_foldl_onRcvChar (S : TEScreen σ ι) (cs : List Int) (m : TEmulation σ ι δ) :
    Output.zmodemDetected ∈ (cs.foldl (fun m c => onRcvChar S c m) m).out ↔
      Output.zmodemDetected ∈ m.out := by
  induction cs generalizing m with
  | nil => simp
  | cons c cs ih =>
    rw [List.foldl_cons, ih]
    rcases out_onRcvChar S c m with h | h <;> simp [h]

/-- `strncmp(p, "B00", 3) == 0` says that the three bytes at `p` are `B`, `0`,
`0`. -/
theorem strncmp_zmodemMarker (l : List Nat) :
    strncmp l zmodemMarker 3 = 0 ↔
      l.headD 0 = 0x42 ∧ l.tail.headD 0 = 0x30 ∧ l.tail.tail.headD 0 = 0x30 := by
  simp only [strncmp, zmodemMarker, List.headD_cons, List.tail_cons, List.headD_nil]
  split_ifs <;> omega

theorem headD_drop (text : List Nat) (k : Nat) : (text.drop k).headD 0 = text.getD k 0 := by
  rw [List.headD_eq_head?_getD, List.head?_drop, List.getD_eq_getElem?_getD]

/-- One step of the z-modem scan emits the signal exactly when the byte at `i`
is `0x18`, more than three bytes follow it, and the first three are `B00`. -/
theorem zmodem_mem_zmodemCheck (text : List Nat) (i : Nat) (m : TEmulation σ ι δ) :
    Output.zmodemDetected ∈ (zmodemCheck text i m).out ↔
      Output.zmodemDetected ∈ m.out ∨
      (text.getD i 0 = 0x18 ∧ i + 4 < text.length ∧ text.getD (i + 1) 0 = 0x42 ∧
        text.getD (i + 2) 0 = 0x30 ∧ text.getD (i + 3) 0 = 0x30) := by
  unfold zmodemCheck
  simp only [strncmp_zmodemMarker, List.tail_drop, headD_drop]
  by_cases h1 : text.getD i 0 = 0o30
  · rw [if_pos h1]
    by_cases h2 : (text.length : Int) - (i : Int) - 1 > 3 ∧ text.getD (i + 1) 0 = 0x42 ∧
        text.getD (i + 1 + 1) 0 = 0x30 ∧ text.getD (i + 1 + 1 + 1) 0 = 0x30
    · rw [if_pos h2]
      have h3 : i + 4 < text.length := by omega
      simp only [TEmulation.send, List.mem_append, List.mem_singleton, true_or, or_true, true_iff]
      exact Or.inr ⟨h1, h3, h2.2.1, h2.2.2.1, h2.2.2.2⟩
    · rw [if_neg h2]
      constructor
      · intro h; exact Or.inl h
      · rintro (h | ⟨_, h3, h4, h5, h6⟩)
        · exact h
        · exact absurd ⟨by omega, h4, h5, h6⟩ h2
  · rw [if_neg h1]
    constructor
    · intro h; exact Or.inl h
    · rintro (h | ⟨h0, _⟩)
      · exact h
      · exact absurd h0 h1

/-- The z-modem scan over the indices below `n`. -/
theorem zmodem_mem_scan (text : List Nat) (n : Nat) (m : TEmulation σ ι δ) :
    Output.zmodemDetected ∈ ((List.range n).foldl (fun m i => zmodemCheck text i m) m).out ↔
      Output.zmodemDetected ∈ m.out ∨
      ∃ i, i < n ∧ text.getD i 0 = 0x18 ∧ i + 4 < text.length ∧ text.getD (i + 1) 0 = 0x42 ∧
        text.getD (i + 2) 0 = 0x30 ∧ text.getD (i + 3) 0 = 0x30 := by
  induction n with
  | zero => simp
  | succ n ih =>
    rw [List.range_succ, List.foldl_append, List.foldl_cons, List.foldl_nil,
      zmodem_mem_zmodemCheck, ih]
    constructor
    · rintro ((h | ⟨i, hi, h⟩) | h)
      · exact Or.inl h
      · exact Or.inr ⟨i, by omega, h⟩
      · exact Or.inr ⟨n, by omega, h⟩
    · rintro (h | ⟨i, hi, h⟩)
      · exact Or.inl (Or.inl h)
      · by_cases hin : i = n
        · subst hin; exact Or.inr h
        · exact Or.inl (Or.inr ⟨i, by omega, h⟩)

/-- C3, what the code does: for every screen, decoder, state and block,
`onRcvBlock` has emitted `zmodemDetected` afterwards exactly when it had been
emitted before or the block holds `0x18` followed by `B00` and by at least one
more byte (`length-i-1 > 3`).  So the block `0x18 'B' '0' '0'`, which ends
exactly with the marker, raises nothing, while the same four bytes followed by
any one further byte do. -/
theorem onRcvBlock_zmodem_at_block_end (S : TEScreen σ ι) (D : QTextDecoder δ) (now : Nat)
    (m : TEmulation σ ι δ) :
    (∀ text : List Nat,
      Output.zmodemDetected ∈ (onRcvBlock S D now text m).out ↔
        Output.zmodemDetected ∈ m.out ∨
        ∃ i, text.getD i 0 = 0x18 ∧ i + 4 < text.length ∧ text.getD (i + 1) 0 = 0x42 ∧
          text.getD (i + 2) 0 = 0x30 ∧ text.getD (i + 3) 0 = 0x30) ∧
    (Output.zmodemDetected ∈ (onRcvBlock S D now [0x18, 0x42, 0x30, 0x30] m).out ↔
      Output.zmodemDetected ∈ m.out) ∧
    ∀ b : Nat, Output.zmodemDetected ∈ (onRcvBlock S D now [0x18, 0x42, 0x30, 0x30, b] m).out := by
  have hgen : ∀ text : List Nat,
      Output.zmodemDetected ∈ (onRcvBlock S D now text m).out ↔
        Output.zmodemDetected ∈ m.out ∨
        ∃ i, text.getD i 0 = 0x18 ∧ i + 4 < text.length ∧ text.getD (i + 1) 0 = 0x42 ∧
          text.getD (i + 2) 0 = 0x30 ∧ text.getD (i + 3) 0 = 0x30 := by
    intro text
    unfold onRcvBlock
    simp only [zmodem_mem_scan, zmodem_mem_foldl_onRcvChar]
    have hb : Output.zmodemDetected ∈
        ({ bulkStart now (m.send (.notifySessionState .NOTIFYACTIVITY)) with
            decoder := (D.toUnicode
              (bulkStart now (m.send (.notifySessionState .NOTIFYACTIVITY))).decoder text).2 }
          : TEmulation σ ι δ).out ↔ Output.zmodemDetected ∈ m.out := by
      rw [bulkStart_eq]
      simp [TEmulation.send]
    rw [hb]
    constructor
    · rintro (h | ⟨i, _, h⟩)
      · exact Or.inl h
      · exact Or.inr ⟨i, h⟩
    · rintro (h | ⟨i, h⟩)
      · exact Or.inl h
      · exact Or.inr ⟨i, by omega, h⟩
  refine ⟨hgen, ?_, ?_⟩
  · rw [hgen]
    constructor
    · rintro (h | ⟨i, _, h, _⟩)
      · exact h
      · simp at h
    · intro h; exact Or.inl h
  · intro b
    rw [hgen]
    exact Or.inr ⟨0, by simp⟩

end Intake

section Refresh

variable {σ ι δ : Type}

/-- C4: `bulkStart` at clock value `now` leaves the fast timer `bulk_timer1`
active with deadline `now + 10`; it leaves the slow timer `bulk_timer2` active
with deadline `now + 40` when it was not active before, and with its previous
deadline when it was active. -/
theorem bulkStart_timers (now : Nat) (m : TEmulation σ ι δ) :
    (bulkStart now m).bulk_timer1.deadline = some (now + 10) ∧
    (m.bulk_timer2.isActive = false →
      (bulkStart now m).bulk_timer2.deadline = some (now + 40)) ∧
    (∀ d : Nat, m.bulk_timer2.deadline = some d →
      (bulkStart now m).bulk_timer2.deadline = some d) := by
  refine ⟨?_, ?_, ?_⟩
  · unfold bulkStart
    simp only
    split <;> rfl
  · intro h
    simp [bulkStart, h, QTimer.start, QTimer.setSingleShot, BULK_TIMEOUT2]
  · intro d h
    simp [bulkStart, QTimer.isActive, h]

/-- C4, evaluated: from stopped timers at time 5 the deadlines are 15 and 45,
and a second call at time 12 moves the fast deadline to 22 and keeps 45. -/
theorem bulkStart_timers_witness :
    (bulkStart 5 (demo blankScreen blankScreen)).bulk_timer2.deadline = some 45 ∧
    (bulkStart 12 (bulkStart 5 (demo blankScreen blankScreen))).bulk_timer1.deadline = some 22 ∧
    (bulkStart 12 (bulkStart 5 (demo blankScreen blankScreen))).bulk_timer2.deadline = some 45 :=
  ⟨(bulkStart_timers 5 (demo blankScreen blankScreen)).2.1 (by decide),
    (bulkStart_timers 12 (bulkStart 5 (demo blankScreen blankScreen))).1,
    (bulkStart_timers 12 (bulkStart 5 (demo blankScreen blankScreen))).2.2 45 (by decide)⟩

theorem cur_send (m : TEmulation σ ι δ) (o : Output ι) : (m.send o).cur = m.cur := rfl

/-- What `showBulk` leaves, field by field. -/
theorem showBulk_eq (S : TEScreen σ ι) (m : TEmulation σ ι δ) :
    showBulk S m =
      { m with
        bulk_timer1 := m.bulk_timer1.stop
        bulk_timer2 := m.bulk_timer2.stop
        out := if m.connected then m.out ++ snapshotOf S m.cur else m.out } := by
  unfold showBulk
  cases hc : m.connected <;>
    simp [hc, TEmulation.send, TEmulation.cur, TEmulation.screen, snapshotOf]

/-- C5: `showBulk` leaves both timers stopped whatever they were; when
connected it appends exactly one snapshot of the active screen to what `gui`
has received, and when not connected it sends nothing; both screen buffers,
the active-screen pointer, the connection flag and the find cursor stay as
they were. -/
theorem showBulk_effect (S : TEScreen σ ι) (m : TEmulation σ ι δ) :
    (showBulk S m).bulk_timer1.isActive = false ∧
    (showBulk S m).bulk_timer2.isActive = false ∧
    (m.connected = true → (showBulk S m).out = m.out ++ snapshotOf S m.cur) ∧
    (m.connected = false → (showBulk S m).out = m.out) ∧
    (showBulk S m).screen0 = m.screen0 ∧
    (showBulk S m).screen1 = m.screen1 ∧
    (showBulk S m).scr = m.scr ∧
    (showBulk S m).connected = m.connected ∧
    (showBulk S m).m_findPos = m.m_findPos := by
  rw [showBulk_eq]
  refine ⟨rfl, rfl, ?_, ?_, rfl, rfl, rfl, rfl, rfl⟩
  · intro h; simp [h]
  · intro h; simp [h]

/-- C5, evaluated on the recording screen: connected, one snapshot goes out;
not connected, nothing does. -/
theorem showBulk_effect_witness :
    (showBulk recScreen { demo fooScreen blankScreen with connected := true }).out =
      [.setImage ["foo", "bar foo", "baz"] 0 80, .setCursorPos 0 0, .setLineWrapped [],
       .setScroll 3 3] ∧
    (showBulk recScreen (demo fooScreen blankScreen)).out = [] :=
  ⟨(showBulk_effect recScreen { demo fooScreen blankScreen with connected := true }).2.2.1 rfl,
    (showBulk_effect recScreen (demo fooScreen blankScreen)).2.2.2.1 rfl⟩

theorem nextTimeout_showBulk (S : TEScreen σ ι) (m : TEmulation σ ι δ) :
    nextTimeout (showBulk S m) = none := by
  rw [showBulk_eq]; rfl

/-- With the slow timer active, some timer is due no later than the slow
deadline. -/
theorem nextTimeout_le_slow (m : TEmulation σ ι δ) (D : Nat)
    (h : m.bulk_timer2.deadline = some D) : ∃ d, nextTimeout m = some d ∧ d ≤ D := by
  unfold nextTimeout
  rw [h]
  cases m.bulk_timer1.deadline with
  | none => exact ⟨D, rfl, le_refl D⟩
  | some a => exact ⟨min a D, rfl, min_le_right a D⟩

theorem flushedAt_elapse (S : TEScreen σ ι) (dt : Nat) (w : Timed σ ι δ) :
    ∃ l, (elapse S dt w).flushedAt = w.flushedAt ++ l := by
  unfold elapse
  split
  · split
    · exact ⟨_, rfl⟩
    · exact ⟨[], by simp⟩
  · exact ⟨[], by simp⟩

theorem slowInv_elapse (S : TEScreen σ ι) (base : List Nat) (t0 D dt : Nat) (w : Timed σ ι δ)
    (h : SlowInv base t0 D w) : SlowInv base t0 D (elapse S dt w) := by
  rcases h with ⟨hf, h2, hn, h0⟩ | ⟨f, rest, hf, h0, hD⟩
  · obtain ⟨d, hd, hdD⟩ := nextTimeout_le_slow w.em D h2
    unfold elapse
    rw [hd]
    by_cases hdue : d ≤ w.now + dt
    · right
      refine ⟨max d w.now, [], ?_, ?_, ?_⟩
      · simp [hdue, hf]
      · exact le_trans h0 (le_max_right d w.now)
      · exact max_le hdD hn
    · left
      simp only [hdue, if_false]
      refine ⟨hf, h2, ?_, ?_⟩
      · show w.now + dt ≤ D
        omega
      · show t0 ≤ w.now + dt
        omega
  · right
    obtain ⟨l, hl⟩ := flushedAt_elapse S dt w
    exact ⟨f, rest ++ l, by rw [hl, hf]; simp, h0, hD⟩

theorem slowInv_armAfter (S : TEScreen σ ι) (base : List Nat) (t0 D gap : Nat)
    (w : Timed σ ι δ) (h : SlowInv base t0 D w) : SlowInv base t0 D (armAfter S gap w) := by
  have he := slowInv_elapse S base t0 D gap w h
  unfold armAfter
  rcases he with ⟨hf, h2, hn, h0⟩ | hB
  · left
    refine ⟨hf, ?_, hn, h0⟩
    show (bulkStart (elapse S gap w).now (elapse S gap w).em).bulk_timer2.deadline = some D
    rw [bulkStart_eq]
    simp [QTimer.isActive, h2]
  · right
    exact hB

theorem slowInv_armRun (S : TEScreen σ ι) (base : List Nat) (t0 D : Nat) (gaps : List Nat)
    (w : Timed σ ι δ) (h : SlowInv base t0 D w) : SlowInv base t0 D (armRun S gaps w) := by
  induction gaps generalizing w with
  | nil => exact h
  | cons g gs ih => exact ih (armAfter S g w) (slowInv_armAfter S base t0 D g w h)

/-- C6: from every state in which the slow timer is pending with deadline
`t + 40` (armed at time `t`), and for every sequence of `bulkStart` calls,
whatever their spacing (in particular all less than 10 apart, so that the fast
timer never fires), a timer has called `showBulk` by time `t + 40`: once the
clock has reached `t + 40`, the times of the flushes since the start begin with
one that is at most `t + 40`. -/
theorem slow_timer_bounds_refresh (S : TEScreen σ ι) (w : Timed σ ι δ) (t : Nat)
    (h2 : w.em.bulk_timer2.deadline = some (t + BULK_TIMEOUT2)) (hnow : w.now ≤ t + BULK_TIMEOUT2)
    (gaps : List Nat) (dt : Nat) (hT : t + BULK_TIMEOUT2 ≤ (armRun S gaps w).now + dt) :
    ∃ f rest, (elapse S dt (armRun S gaps w)).flushedAt = w.flushedAt ++ f :: rest ∧
      w.now ≤ f ∧ f ≤ t + BULK_TIMEOUT2 := by
  have hinv : SlowInv w.flushedAt w.now (t + BULK_TIMEOUT2) (armRun S gaps w) :=
    slowInv_armRun S _ _ _ gaps w (Or.inl ⟨rfl, h2, hnow, le_refl _⟩)
  rcases hinv with ⟨hf, h2r, hnr, h0r⟩ | ⟨f, rest, hf, h0, hD⟩
  · obtain ⟨d, hd, hdD⟩ := nextTimeout_le_slow (armRun S gaps w).em _ h2r
    have hdue : d ≤ (armRun S gaps w).now + dt := le_trans hdD hT
    refine ⟨max d (armRun S gaps w).now, [], ?_, ?_, ?_⟩
    · unfold elapse
      rw [hd]
      simp [hdue, hf]
    · exact le_trans h0r (le_max_right _ _)
    · exact max_le hdD hnr
  · obtain ⟨l, hl⟩ := flushedAt_elapse S dt (armRun S gaps w)
    exact ⟨f, rest ++ l, by rw [hl, hf]; simp, h0, hD⟩

/-- The state during a burst that started at time `T0`: the clock reads
`T0 + s`, the fast timer is due 10 after that and the slow timer at `T0 + 40`;
further calls of `bulkStart` whose gaps keep the total below 10 fire no
timer. -/
theorem armRun_burst (S : TEScreen σ ι) (T0 : Nat) (gs : List Nat) (s : Nat) (w : Timed σ ι δ)
    (hn : w.now = T0 + s) (h1 : w.em.bulk_timer1.deadline = some (T0 + s + 10))
    (h2 : w.em.bulk_timer2.deadline = some (T0 + 40)) (hs : s + gs.sum < 10) :
    (armRun S gs w).now = T0 + s + gs.sum ∧
    (armRun S gs w).em.bulk_timer1.deadline = some (T0 + s + gs.sum + 10) ∧
    (armRun S gs w).em.bulk_timer2.deadline = some (T0 + 40) ∧
    (armRun S gs w).flushedAt = w.flushedAt := by
  induction gs generalizing s w with
  | nil => exact ⟨by simpa using hn, by simpa using h1, h2, rfl⟩
  | cons g gs ih =>
    rw [List.sum_cons] at hs
    have hnt : nextTimeout w.em = some (T0 + s + 10) := by
      unfold nextTimeout
      rw [h1, h2]
      simp only [Option.some.injEq]
      omega
    have he : elapse S g w = { w with now := w.now + g } := by
      unfold elapse
      rw [hnt]
      have : ¬ (T0 + s + 10 ≤ w.now + g) := by omega
      simp [this]
    have hstep := ih (s + g) (armAfter S g w)
      (by simp [armAfter, he, hn]; omega)
      (by simp [armAfter, he, hn, bulkStart_eq]; omega)
      (by simp [armAfter, he, bulkStart_eq, QTimer.isActive, h2])
      (by omega)
    obtain ⟨a, b, c, d⟩ := hstep
    refine ⟨?_, ?_, c, ?_⟩
    · show (armRun S gs (armAfter S g w)).now = _
      rw [a, List.sum_cons]; omega
    · show (armRun S gs (armAfter S g w)).em.bulk_timer1.deadline = _
      rw [b, List.sum_cons]
      simp only [Option.some.injEq]
      omega
    · show (armRun S gs (armAfter S g w)).flushedAt = _
      rw [d]
      simp [armAfter, he]

/-- C7: starting with both timers stopped, `N ≥ 1` calls of `bulkStart` (the
first after `g0`, the others after the gaps `gs`) that all lie less than 10
after the first, followed by more than 10 time units without a call, produce
exactly one flush, 10 after the last call; afterwards both timers are stopped
and, however long one waits, no further flush follows. -/
theorem burst_flushes_once (S : TEScreen σ ι) (w : Timed σ ι δ)
    (h1 : w.em.bulk_timer1.isActive = false) (h2 : w.em.bulk_timer2.isActive = false)
    (g0 : Nat) (gs : List Nat) (hs : gs.sum < BULK_TIMEOUT1) (dt : Nat)
    (hdt : BULK_TIMEOUT1 < dt) :
    (elapse S dt (armRun S (g0 :: gs) w)).flushedAt =
      w.flushedAt ++ [w.now + g0 + gs.sum + BULK_TIMEOUT1] ∧
    (elapse S dt (armRun S (g0 :: gs) w)).em.bulk_timer1.isActive = false ∧
    (elapse S dt (armRun S (g0 :: gs) w)).em.bulk_timer2.isActive = false ∧
    ∀ dt2 : Nat, (elapse S dt2 (elapse S dt (armRun S (g0 :: gs) w))).flushedAt =
      w.flushedAt ++ [w.now + g0 + gs.sum + BULK_TIMEOUT1] := by
  simp only [BULK_TIMEOUT1] at hs hdt ⊢
  replace h1 : w.em.bulk_timer1.deadline = none := by
    cases hd1 : w.em.bulk_timer1.deadline with
    | none => rfl
    | some a => simp [QTimer.isActive, hd1] at h1
  replace h2 : w.em.bulk_timer2.deadline = none := by
    cases hd2 : w.em.bulk_timer2.deadline with
    | none => rfl
    | some a => simp [QTimer.isActive, hd2] at h2
  have hnt : nextTimeout w.em = none := by
    unfold nextTimeout; rw [h1, h2]
  have he : elapse S g0 w = { w with now := w.now + g0 } := by
    unfold elapse; rw [hnt]
  obtain ⟨a, b, c, d⟩ := armRun_burst S (w.now + g0) gs 0 (armAfter S g0 w)
    (by simp [armAfter, he])
    (by simp [armAfter, he, bulkStart_eq])
    (by simp [armAfter, he, bulkStart_eq, QTimer.isActive, h2])
    (by omega)
  have hrun : armRun S (g0 :: gs) w = armRun S gs (armAfter S g0 w) := rfl
  have hd : (armRun S gs (armAfter S g0 w)).flushedAt = w.flushedAt := by
    rw [d]; simp [armAfter, he]
  have hnt2 : nextTimeout (armRun S gs (armAfter S g0 w)).em
      = some (w.now + g0 + gs.sum + 10) := by
    unfold nextTimeout
    rw [b, c]
    simp only [Option.some.injEq]
    omega
  have hfire : elapse S dt (armRun S gs (armAfter S g0 w)) =
      { now := (armRun S gs (armAfter S g0 w)).now + dt,
        em := showBulk S (armRun S gs (armAfter S g0 w)).em,
        flushedAt := w.flushedAt ++ [w.now + g0 + gs.sum + 10] } := by
    unfold elapse
    rw [hnt2, hd]
    have h3 : w.now + g0 + gs.sum + 10 ≤ (armRun S gs (armAfter S g0 w)).now + dt := by
      rw [a]; omega
    have h4 : max (w.now + g0 + gs.sum + 10) (armRun S gs (armAfter S g0 w)).now
        = w.now + g0 + gs.sum + 10 := by
      rw [a]; omega
    simp [h3, h4]
  rw [hrun, hfire]
  refine ⟨rfl, ?_, ?_, ?_⟩
  · simp [showBulk_eq, QTimer.isActive, QTimer.stop]
  · simp [showBulk_eq, QTimer.isActive, QTimer.stop]
  · intro dt2
    unfold elapse
    simp [nextTimeout_showBulk]

/-- C6, evaluated: the slow timer is armed at time 0; with a call of
`bulkStart` every 9 time units the fast timer never fires, and the flush comes
at time 40. -/
theorem slow_timer_bounds_refresh_witness :
    (armRun recScreen [9, 9, 9, 9, 9] (armAfter recScreen 0 demoTimed)).now = 45 ∧
    (elapse recScreen 0
      (armRun recScreen [9, 9, 9, 9, 9] (armAfter recScreen 0 demoTimed))).flushedAt = [40] ∧
    ∃ f rest, (elapse recScreen 0
      (armRun recScreen [9, 9, 9, 9, 9] (armAfter recScreen 0 demoTimed))).flushedAt
        = [] ++ f :: rest ∧ 0 ≤ f ∧ f ≤ 0 + BULK_TIMEOUT2 :=
  ⟨by decide, by decide,
    slow_timer_bounds_refresh recScreen (armAfter recScreen 0 demoTimed) 0 (by decide)
      (by decide) [9, 9, 9, 9, 9] 0 (by decide)⟩

/-- C7, evaluated: three calls at times 3, 7 and 12, then 11 time units of
silence: one flush, at time 22. -/
theorem burst_flushes_once_witness :
    (elapse recScreen 11 (armRun recScreen [3, 4, 5] demoTimed)).flushedAt = [] ++ [22] ∧
    (∀ dt2 : Nat, (elapse recScreen dt2
      (elapse recScreen 11 (armRun recScreen [3, 4, 5] demoTimed))).flushedAt = [] ++ [22]) :=
  ⟨(burst_flushes_once recScreen demoTimed (by decide) (by decide) 3 [4, 5] (by decide) 11
      (by decide)).1,
    (burst_flushes_once recScreen demoTimed (by decide) (by decide) 3 [4, 5] (by decide) 11
      (by decide)).2.2.2⟩

end Refresh

section Search

variable {σ ι δ : Type}

theorem mem_upFrom (j i : Int) (n : Nat) : j ∈ upFrom i n ↔ i ≤ j ∧ j < i + n := by
  induction n generalizing i with
  | zero => simp [upFrom]
  | succ n ih =>
    simp only [upFrom, List.mem_cons, ih]
    push_cast
    omega

theorem mem_downFrom (j i : Int) (n : Nat) : j ∈ downFrom i n ↔ j ≤ i ∧ i < j + n := by
  induction n generalizing i with
  | zero => simp [downFrom]
  | succ n ih =>
    simp only [downFrom, List.mem_cons, ih]
    push_cast
    omega

theorem cur_setScreenAt (m : TEmulation σ ι δ) (s : σ) : (m.setScreenAt m.scr s).cur = s := by
  unfold TEmulation.setScreenAt TEmulation.cur TEmulation.screen
  split <;> simp_all

theorem cur_onScr (m : TEmulation σ ι δ) (f : σ → σ) : (m.onScr f).cur = f m.cur :=
  cur_setScreenAt m (f m.cur)

theorem findPos_onScr (m : TEmulation σ ι δ) (f : σ → σ) : (m.onScr f).m_findPos = m.m_findPos := by
  unfold TEmulation.onScr TEmulation.setScreenAt
  split <;> rfl

theorem scr_onScr (m : TEmulation σ ι δ) (f : σ → σ) : (m.onScr f).scr = m.scr := by
  unfold TEmulation.onScr TEmulation.setScreenAt
  split <;> rfl

theorem cur_showBulk (S : TEScreen σ ι) (m : TEmulation σ ι δ) : (showBulk S m).cur = m.cur := by
  rw [showBulk_eq]; rfl

/-- The block run on a match at line `i`: the find cursor is `i`, the active
screen gets `setHistCursor(min(i, getHistLines()))`, then `showBulk` runs. -/
theorem findHit_eq (S : TEScreen σ ι) (m : TEmulation σ ι δ) (i : Int) :
    findHit S m i =
      showBulk S (({ m with m_findPos := i } : TEmulation σ ι δ).onScr
        (S.setHistCursor (min i (S.getHistLines m.cur)))) := by
  unfold findHit
  have hc : ({ m with m_findPos := i } : TEmulation σ ι δ).cur = m.cur := rfl
  simp only [hc]
  by_cases h : i > S.getHistLines m.cur
  · rw [if_pos h, min_eq_right (le_of_lt h)]
  · rw [if_neg h, min_eq_left (not_lt.mp h)]

theorem findHit_findPos (S : TEScreen σ ι) (m : TEmulation σ ι δ) (i : Int) :
    (findHit S m i).m_findPos = i := by
  rw [findHit_eq, showBulk_eq]
  exact findPos_onScr _ _

theorem findHit_cur (S : TEScreen σ ι) (m : TEmulation σ ι δ) (i : Int) :
    (findHit S m i).cur = S.setHistCursor (min i (S.getHistLines m.cur)) m.cur := by
  rw [findHit_eq, cur_showBulk, cur_onScr]
  rfl

/-- The forward loop with enough fuel ends: either no line from `i` up to the
bound matches, the state is untouched and every one of these lines was read;
or it stops at the first matching line `k`, having read the lines `i..k`. -/
theorem findForward_spec (S : TEScreen σ ι) (Q : QStringSearch) (str : String)
    (cs re : Bool) (m : TEmulation σ ι δ) (fuel : Nat) (i : Int)
    (hfuel : (S.getHistLines m.cur + S.getLines m.cur - i).toNat < fuel) :
    ∃ r, findForward S Q str cs re m fuel i = some r ∧
      ((r.found = false ∧ r.em = m ∧
          (∀ j, i ≤ j → j < S.getHistLines m.cur + S.getLines m.cur →
            findPosAt S Q str cs re m j = -1) ∧
          r.examined = upFrom i (S.getHistLines m.cur + S.getLines m.cur - i).toNat) ∨
       (∃ k, i ≤ k ∧ k < S.getHistLines m.cur + S.getLines m.cur ∧
          findPosAt S Q str cs re m k ≠ -1 ∧
          (∀ j, i ≤ j → j < k → findPosAt S Q str cs re m j = -1) ∧
          r.found = true ∧ r.em = findHit S m k ∧
          r.examined = upFrom i (k - i + 1).toNat)) := by
  induction fuel generalizing i with
  | zero => omega
  | succ fuel ih =>
    unfold findForward
    by_cases hlt : i < S.getHistLines m.cur + S.getLines m.cur
    · rw [if_pos hlt]
      by_cases hp : findPosAt S Q str cs re m i ≠ -1
      · rw [if_pos hp]
        refine ⟨_, rfl, Or.inr ⟨i, le_refl i, hlt, hp, ?_, rfl, rfl, ?_⟩⟩
        · intro j h1 h2; omega
        · simp [upFrom]
      · rw [if_neg hp]
        have hp2 : findPosAt S Q str cs re m i = -1 := not_not.mp hp
        obtain ⟨r, hr, hcase⟩ := ih (i + 1) (by omega)
        rw [hr]
        refine ⟨_, rfl, ?_⟩
        rcases hcase with ⟨hf, hem, hall, hex⟩ | ⟨k, hk1, hk2, hk3, hk4, hf, hem, hex⟩
        · left
          refine ⟨hf, hem, ?_, ?_⟩
          · intro j h1 h2
            by_cases hji : j = i
            · rw [hji]; exact hp2
            · exact hall j (by omega) h2
          · show i :: r.examined = _
            rw [hex]
            have : (S.getHistLines m.cur + S.getLines m.cur - i).toNat
                = (S.getHistLines m.cur + S.getLines m.cur - (i + 1)).toNat + 1 := by omega
            rw [this]
            rfl
        · right
          refine ⟨k, by omega, hk2, hk3, ?_, hf, hem, ?_⟩
          · intro j h1 h2
            by_cases hji : j = i
            · rw [hji]; exact hp2
            · exact hk4 j (by omega) h2
          · show i :: r.examined = _
            rw [hex]
            have : (k - i + 1).toNat = (k - (i + 1) + 1).toNat + 1 := by omega
            rw [this]
            rfl
    · rw [if_neg hlt]
      refine ⟨_, rfl, Or.inl ⟨rfl, rfl, ?_, ?_⟩⟩
      · intro j h1 h2; omega
      · have : (S.getHistLines m.cur + S.getLines m.cur - i).toNat = 0 := by omega
        rw [this]
        rfl

/-- The backward loop with enough fuel ends: either no line from `i` down to
0 matches, the state is untouched and every one of these lines was read; or it
stops at the first matching line `k` on the way down, having read `i..k`. -/
theorem findBackward_spec (S : TEScreen σ ι) (Q : QStringSearch) (str : String)
    (cs re : Bool) (m : TEmulation σ ι δ) (fuel : Nat) (i : Int)
    (hfuel : (i + 1).toNat < fuel) :
    ∃ r, findBackward S Q str cs re m fuel i = some r ∧
      ((r.found = false ∧ r.em = m ∧
          (∀ j, 0 ≤ j → j ≤ i → findPosAt S Q str cs re m j = -1) ∧
          r.examined = downFrom i (i + 1).toNat) ∨
       (∃ k, 0 ≤ k ∧ k ≤ i ∧ findPosAt S Q str cs re m k ≠ -1 ∧
          (∀ j, k < j → j ≤ i → findPosAt S Q str cs re m j = -1) ∧
          r.found = true ∧ r.em = findHit S m k ∧
          r.examined = downFrom i (i - k + 1).toNat)) := by
  induction fuel generalizing i with
  | zero => omega
  | succ fuel ih =>
    unfold findBackward
    by_cases hge : i ≥ 0
    · rw [if_pos hge]
      by_cases hp : findPosAt S Q str cs re m i ≠ -1
      · rw [if_pos hp]
        refine ⟨_, rfl, Or.inr ⟨i, hge, le_refl i, hp, ?_, rfl, rfl, ?_⟩⟩
        · intro j h1 h2; omega
        · simp [downFrom]
      · rw [if_neg hp]
        have hp2 : findPosAt S Q str cs re m i = -1 := not_not.mp hp
        obtain ⟨r, hr, hcase⟩ := ih (i - 1) (by omega)
        rw [hr]
        refine ⟨_, rfl, ?_⟩
        rcases hcase with ⟨hf, hem, hall, hex⟩ | ⟨k, hk1, hk2, hk3, hk4, hf, hem, hex⟩
        · left
          refine ⟨hf, hem, ?_, ?_⟩
          · intro j h1 h2
            by_cases hji : j = i
            · rw [hji]; exact hp2
            · exact hall j h1 (by omega)
          · show i :: r.examined = _
            rw [hex]
            have : (i + 1).toNat = (i - 1 + 1).toNat + 1 := by omega
            rw [this]
            rfl
        · right
          refine ⟨k, hk1, by omega, hk3, ?_, hf, hem, ?_⟩
          · intro j h1 h2
            by_cases hji : j = i
            · rw [hji]; exact hp2
            · exact hk4 j h1 (by omega)
          · show i :: r.examined = _
            rw [hex]
            have : (i - k + 1).toNat = (i - 1 - k + 1).toNat + 1 := by omega
            rw [this]
            rfl
    · rw [if_neg hge]
      refine ⟨_, rfl, Or.inl ⟨rfl, rfl, ?_, ?_⟩⟩
      · intro j h1 h2; omega
      · have : (i + 1).toNat = 0 := by omega
        rw [this]
        rfl

/-- C8: a forward `findTextNext` starts at index 0 when `m_findPos` is `-1`
and at `m_findPos + 1` otherwise; it returns, and returns `true` exactly when
some line with index in `[start, getHistLines() + getLines())` matches.  On
success `m_findPos` is the least such index `i`, the active screen has received
`setHistCursor(min(i, getHistLines()))`, and the lines read are `start..i`; on
failure the lines read are `start..bound-1`; no line below `start` (nor at or
above the bound) is read. -/
theorem findTextNext_forward (S : TEScreen σ ι) (Q : QStringSearch) (str : String)
    (cs re : Bool) (m : TEmulation σ ι δ) (start bound : Int)
    (hstart : start = if m.m_findPos = -1 then 0 else m.m_findPos + 1)
    (hbound : bound = S.getHistLines m.cur + S.getLines m.cur) :
    ∃ r, findTextNext S Q str true cs re m = some r ∧
      (r.found = true ↔ ∃ i, start ≤ i ∧ i < bound ∧ findPosAt S Q str cs re m i ≠ -1) ∧
      (r.found = true →
        start ≤ r.em.m_findPos ∧ r.em.m_findPos < bound ∧
        findPosAt S Q str cs re m r.em.m_findPos ≠ -1 ∧
        (∀ j, start ≤ j → j < r.em.m_findPos → findPosAt S Q str cs re m j = -1) ∧
        r.em.cur = S.setHistCursor (min r.em.m_findPos (S.getHistLines m.cur)) m.cur ∧
        r.examined = upFrom start (r.em.m_findPos - start + 1).toNat) ∧
      (r.found = false → r.examined = upFrom start (bound - start).toNat) ∧
      (∀ j ∈ r.examined, start ≤ j ∧ j < bound) := by
  have hs : forwardStart m = start := by rw [hstart]; rfl
  obtain ⟨r, hr, hcase⟩ := findForward_spec S Q str cs re m
    ((S.getHistLines m.cur + S.getLines m.cur - forwardStart m).toNat + 1) (forwardStart m)
    (Nat.lt_succ_self _)
  refine ⟨r, by simp only [findTextNext, if_true]; exact hr, ?_⟩
  rw [hs, ← hbound] at hcase
  rcases hcase with ⟨hf, _, hall, hex⟩ | ⟨k, hk1, hk2, hk3, hk4, hf, hem, hex⟩
  · refine ⟨?_, ?_, ?_, ?_⟩
    · constructor
      · intro h; rw [hf] at h; exact absurd h (by decide)
      · rintro ⟨i, h1, h2, h3⟩; exact absurd (hall i h1 h2) h3
    · intro h; rw [hf] at h; exact absurd h (by decide)
    · intro _; exact hex
    · intro j hj
      rw [hex, mem_upFrom] at hj
      omega
  · have hpos : r.em.m_findPos = k := by rw [hem]; exact findHit_findPos S m k
    refine ⟨?_, ?_, ?_, ?_⟩
    · exact ⟨fun _ => ⟨k, hk1, hk2, hk3⟩, fun _ => hf⟩
    · intro _
      rw [hpos]
      refine ⟨hk1, hk2, hk3, hk4, ?_, hex⟩
      rw [hem]; exact findHit_cur S m k
    · intro h; rw [hf] at h; exact absurd h (by decide)
    · intro j hj
      rw [hex, mem_upFrom] at hj
      omega

/-- C8, evaluated on the example of the specification: from an unset cursor the
search for `foo` stops at line 0; from cursor 0 it reads line 1 only and stops
there. -/
theorem findTextNext_forward_witness :
    (findTextNext recScreen plainSearch "foo" true true false
        { demo fooScreen blankScreen with m_findPos := 0 }).map
      (fun r => (r.found, r.em.m_findPos, r.em.cur.histCursor, r.examined))
      = some (true, 1, 1, [1]) ∧
    ∃ r, findTextNext recScreen plainSearch "foo" true true false
        (demo fooScreen blankScreen) = some r ∧
      (r.found = true ↔ ∃ i, (0 : Int) ≤ i ∧ i < 3 ∧
        findPosAt recScreen plainSearch "foo" true false (demo fooScreen blankScreen) i ≠ -1) ∧
      (r.found = true →
        0 ≤ r.em.m_findPos ∧ r.em.m_findPos < 3 ∧
        findPosAt recScreen plainSearch "foo" true false (demo fooScreen blankScreen)
          r.em.m_findPos ≠ -1 ∧
        (∀ j, 0 ≤ j → j < r.em.m_findPos →
          findPosAt recScreen plainSearch "foo" true false (demo fooScreen blankScreen) j = -1) ∧
        r.em.cur = recScreen.setHistCursor
          (min r.em.m_findPos (recScreen.getHistLines (demo fooScreen blankScreen).cur))
          (demo fooScreen blankScreen).cur ∧
        r.examined = upFrom 0 (r.em.m_findPos - 0 + 1).toNat) ∧
      (r.found = false → r.examined = upFrom 0 ((3 : Int) - 0).toNat) ∧
      (∀ j ∈ r.examined, 0 ≤ j ∧ j < 3) :=
  ⟨by decide,
    findTextNext_forward recScreen plainSearch "foo" true false (demo fooScreen blankScreen) 0 3
      (by decide) (by decide)⟩

/-- C9: a backward `findTextNext` starts at `getHistLines() + getLines()` when
`m_findPos` is `-1` and at `m_findPos - 1` otherwise; it returns, and returns
`true` exactly when some line with index in `[0, start]` matches.  On success
`m_findPos` is the greatest such index `i` and the lines read are `start`
down to `i`; on failure the lines read are `start` down to and including 0.
With `m_findPos = 0` it reads no line, returns `false` and changes nothing. -/
theorem findTextNext_backward (S : TEScreen σ ι) (Q : QStringSearch) (str : String)
    (cs re : Bool) (m : TEmulation σ ι δ) (start : Int)
    (hstart : start =
      if m.m_findPos = -1 then S.getHistLines m.cur + S.getLines m.cur else m.m_findPos - 1) :
    ∃ r, findTextNext S Q str false cs re m = some r ∧
      (r.found = true ↔ ∃ i, 0 ≤ i ∧ i ≤ start ∧ findPosAt S Q str cs re m i ≠ -1) ∧
      (r.found = true →
        0 ≤ r.em.m_findPos ∧ r.em.m_findPos ≤ start ∧
        findPosAt S Q str cs re m r.em.m_findPos ≠ -1 ∧
        (∀ j, r.em.m_findPos < j → j ≤ start → findPosAt S Q str cs re m j = -1) ∧
        r.examined = downFrom start (start - r.em.m_findPos + 1).toNat) ∧
      (r.found = false → r.examined = downFrom start (start + 1).toNat) ∧
      (m.m_findPos = 0 → r.found = false ∧ r.examined = [] ∧ r.em = m) := by
  have hs : backwardStart S m = start := by rw [hstart]; rfl
  obtain ⟨r, hr, hcase⟩ := findBackward_spec S Q str cs re m
    ((backwardStart S m + 1).toNat + 1) (backwardStart S m) (Nat.lt_succ_self _)
  refine ⟨r, by simp only [findTextNext, Bool.false_eq_true, if_false]; exact hr, ?_⟩
  rw [hs] at hcase
  rcases hcase with ⟨hf, hem, hall, hex⟩ | ⟨k, hk1, hk2, hk3, hk4, hf, hem, hex⟩
  · refine ⟨?_, ?_, ?_, ?_⟩
    · constructor
      · intro h; rw [hf] at h; exact absurd h (by decide)
      · rintro ⟨i, h1, h2, h3⟩; exact absurd (hall i h1 h2) h3
    · intro h; rw [hf] at h; exact absurd h (by decide)
    · intro _; exact hex
    · intro h0
      refine ⟨hf, ?_, hem⟩
      have hst : start = -1 := by rw [hstart, h0]; rfl
      rw [hex, hst]
      rfl
  · have hpos : r.em.m_findPos = k := by rw [hem]; exact findHit_findPos S m k
    refine ⟨?_, ?_, ?_, ?_⟩
    · exact ⟨fun _ => ⟨k, hk1, hk2, hk3⟩, fun _ => hf⟩
    · intro _
      rw [hpos]
      exact ⟨hk1, hk2, hk3, hk4, hex⟩
    · intro h; rw [hf] at h; exact absurd h (by decide)
    · intro h0
      have hst : start = -1 := by rw [hstart, h0]; rfl
      omega

/-- C9, evaluated on the example of the specification: from an unset cursor the
backward search for `foo` reads the lines 3, 2, 1 and stops at line 1; from
cursor 0 it reads nothing and returns `false`. -/
theorem findTextNext_backward_witness :
    (findTextNext recScreen plainSearch "foo" false true false
        (demo fooScreen blankScreen)).map
      (fun r => (r.found, r.em.m_findPos, r.examined)) = some (true, 1, [3, 2, 1]) ∧
    ∃ r, findTextNext recScreen plainSearch "foo" false true false
        { demo fooScreen blankScreen with m_findPos := 0 } = some r ∧
      r.found = false ∧ r.examined = [] ∧
      r.em = { demo fooScreen blankScreen with m_findPos := 0 } :=
  ⟨by decide,
    (findTextNext_backward recScreen plainSearch "foo" true false
      { demo fooScreen blankScreen with m_findPos := 0 } (-1) (by decide)).imp
      fun _ h => ⟨h.1, h.2.2.2.2 rfl⟩⟩

/-- C10: when no line of the scanned range matches (forward: the indices from
the start up to `getHistLines() + getLines() - 1`; backward: from the start
down to 0), `findTextNext` returns `false` and leaves the whole mediator state
as it was: `m_findPos`, both screens with their history cursor, both timers and
the log of what was sent; no `showBulk` and no `bulkStart` runs.  The lines it
reads all lie in the scanned range, on the side of the cursor it searches. -/
theorem findTextNext_no_match (S : TEScreen σ ι) (Q : QStringSearch) (str : String)
    (forward cs re : Bool) (m : TEmulation σ ι δ) (start bound : Int)
    (hbound : bound = S.getHistLines m.cur + S.getLines m.cur)
    (hstart : start =
      if forward then (if m.m_findPos = -1 then 0 else m.m_findPos + 1)
      else (if m.m_findPos = -1 then bound else m.m_findPos - 1))
    (hno : ∀ i : Int, (if forward then start ≤ i ∧ i < bound else 0 ≤ i ∧ i ≤ start) →
      findPosAt S Q str cs re m i = -1) :
    ∃ r, findTextNext S Q str forward cs re m = some r ∧
      r.found = false ∧ r.em = m ∧
      ∀ j ∈ r.examined, if forward then start ≤ j ∧ j < bound else 0 ≤ j ∧ j ≤ start := by
  cases forward with
  | true =>
    simp only [if_true] at hstart hno ⊢
    have hs : forwardStart m = start := by rw [hstart]; rfl
    obtain ⟨r, hr, hcase⟩ := findForward_spec S Q str cs re m
      ((S.getHistLines m.cur + S.getLines m.cur - forwardStart m).toNat + 1) (forwardStart m)
      (Nat.lt_succ_self _)
    refine ⟨r, by simp only [findTextNext, if_true]; exact hr, ?_⟩
    rw [hs, ← hbound] at hcase
    rcases hcase with ⟨hf, hem, _, hex⟩ | ⟨k, hk1, hk2, hk3, _⟩
    · refine ⟨hf, hem, ?_⟩
      intro j hj
      rw [hex, mem_upFrom] at hj
      omega
    · exact absurd (hno k ⟨hk1, hk2⟩) hk3
  | false =>
    simp only [Bool.false_eq_true, if_false] at hstart hno ⊢
    have hs : backwardStart S m = start := by rw [hstart, hbound]; rfl
    obtain ⟨r, hr, hcase⟩ := findBackward_spec S Q str cs re m
      ((backwardStart S m + 1).toNat + 1) (backwardStart S m) (Nat.lt_succ_self _)
    refine ⟨r, by simp only [findTextNext, Bool.false_eq_true, if_false]; exact hr, ?_⟩
    rw [hs] at hcase
    rcases hcase with ⟨hf, hem, _, hex⟩ | ⟨k, hk1, hk2, hk3, _⟩
    · refine ⟨hf, hem, ?_⟩
      intro j hj
      rw [hex, mem_downFrom] at hj
      omega
    · exact absurd (hno k ⟨hk1, hk2⟩) hk3

/-- C10, evaluated on the example of the specification: after the matches at
lines 0 and 1 the third forward search for `foo` returns `false` and the
cursor stays at 1; a backward search for `qux` from an unset cursor returns
`false` and the cursor stays unset. -/
theorem findTextNext_no_match_witness :
    (∃ r, findTextNext recScreen plainSearch "foo" true true false
        { demo fooScreen blankScreen with m_findPos := 1 } = some r ∧
      r.found = false ∧ r.em = { demo fooScreen blankScreen with m_findPos := 1 } ∧
      ∀ j ∈ r.examined, if true then (2 : Int) ≤ j ∧ j < 3 else 0 ≤ j ∧ j ≤ 2) ∧
    (findTextNext recScreen plainSearch "qux" false true false
        (demo fooScreen blankScreen)).map
      (fun r => (r.found, r.em.m_findPos, r.em.cur.histCursor, r.em.out.length, r.examined))
      = some (false, -1, 3, 0, [3, 2, 1, 0]) :=
  ⟨findTextNext_no_match recScreen plainSearch "foo" true true false
      { demo fooScreen blankScreen with m_findPos := 1 } 2 3 (by decide) (by decide)
      (by
        intro i hi
        simp only [if_true] at hi
        have h2 : i = 2 := by omega
        rw [h2]
        decide),
    by decide⟩

/-! ### Repeated search -/

theorem head_downFrom (s : Int) (n : Nat) (h : 0 < n) : (downFrom s n).head? = some s := by
  cases n with
  | zero => omega
  | succ n => rfl

/-- C12, the code at the failing input: after `findTextBegin`, on a screen
with `getHistLines() + getLines() = bound ≥ 0`, the first line a backward
`findTextNext` passes to `getHistoryLine` is `bound`, one past the last index
of `[0, bound)`; and when that line matches, the call returns `true` with
`m_findPos = bound`. -/
theorem findTextNext_backward_reads_bound (S : TEScreen σ ι) (Q : QStringSearch) (str : String)
    (cs re : Bool) (m : TEmulation σ ι δ) (bound : Int)
    (hbound : bound = S.getHistLines m.cur + S.getLines m.cur) (h0 : 0 ≤ bound) :
    ∃ r, findTextNext S Q str false cs re (findTextBegin m) = some r ∧
      r.examined.head? = some bound ∧
      (findPosAt S Q str cs re m bound ≠ -1 → r.found = true ∧ r.em.m_findPos = bound) := by
  have hs : backwardStart S (findTextBegin m) = bound := by rw [hbound]; rfl
  obtain ⟨r, hr, hcase⟩ := findBackward_spec S Q str cs re (findTextBegin m)
    ((backwardStart S (findTextBegin m) + 1).toNat + 1) (backwardStart S (findTextBegin m))
    (Nat.lt_succ_self _)
  refine ⟨r, by simp only [findTextNext, Bool.false_eq_true, if_false]; exact hr, ?_⟩
  rw [hs] at hcase
  rcases hcase with ⟨_, _, hall, hex⟩ | ⟨k, hk1, hk2, hk3, hk4, hf, hem, hex⟩
  · refine ⟨by rw [hex]; exact head_downFrom _ _ (by omega), ?_⟩
    intro hm
    exact absurd (hall bound h0 (le_refl _)) hm
  · refine ⟨by rw [hex]; exact head_downFrom _ _ (by omega), ?_⟩
    intro hm
    have hkb : k = bound := by
      by_contra hne
      exact hm (hk4 bound (by omega) (le_refl _))
    refine ⟨hf, ?_⟩
    rw [hem, findHit_findPos, hkb]

/-- C12, evaluated: the screen of the example has 3 history lines and no
visible line, so its lines are 0, 1, 2; a backward search for the empty string
from an unset cursor reads line 3 and leaves `m_findPos = 3`. -/
theorem findTextNext_backward_reads_bound_witness :
    (findTextNext recScreen plainSearch "" false true false
        (findTextBegin (demo fooScreen blankScreen))).map
      (fun r => (r.found, r.examined, r.em.m_findPos)) = some (true, [3], 3) ∧
    ∃ r, findTextNext recScreen plainSearch "" false true false
        (findTextBegin (demo fooScreen blankScreen)) = some r ∧
      r.examined.head? = some 3 ∧
      (findPosAt recScreen plainSearch "" true false (demo fooScreen blankScreen) 3 ≠ -1 →
        r.found = true ∧ r.em.m_findPos = 3) :=
  ⟨by decide,
    findTextNext_backward_reads_bound recScreen plainSearch "" true false
      (demo fooScreen blankScreen) 3 (by decide) (by decide)⟩

theorem connected_onScr (m : TEmulation σ ι δ) (f : σ → σ) :
    (m.onScr f).connected = m.connected := by
  unfold TEmulation.onScr TEmulation.setScreenAt
  split <;> rfl

/-- A call of `findTextNext` that returns `true` has run the block for a
match at some line `k`. -/
theorem findTextNext_found (S : TEScreen σ ι) (Q : QStringSearch) (str : String)
    (forward cs re : Bool) (m : TEmulation σ ι δ) (r : FindResult σ ι δ)
    (h : findTextNext S Q str forward cs re m = some r) (hf : r.found = true) :
    ∃ k, r.em = findHit S m k := by
  cases forward with
  | true =>
    obtain ⟨r2, hr, hcase⟩ := findForward_spec S Q str cs re m
      ((S.getHistLines m.cur + S.getLines m.cur - forwardStart m).toNat + 1) (forwardStart m)
      (Nat.lt_succ_self _)
    simp only [findTextNext, if_true] at h
    rw [hr] at h
    cases h
    rcases hcase with ⟨hf2, _⟩ | ⟨k, _, _, _, _, _, hem, _⟩
    · rw [hf2] at hf; exact absurd hf (by decide)
    · exact ⟨k, hem⟩
  | false =>
    obtain ⟨r2, hr, hcase⟩ := findBackward_spec S Q str cs re m
      ((backwardStart S m + 1).toNat + 1) (backwardStart S m) (Nat.lt_succ_self _)
    simp only [findTextNext, Bool.false_eq_true, if_false] at h
    rw [hr] at h
    cases h
    rcases hcase with ⟨hf2, _⟩ | ⟨k, _, _, _, _, _, hem, _⟩
    · rw [hf2] at hf; exact absurd hf (by decide)
    · exact ⟨k, hem⟩

/-- C13, refuted as stated: with both timers running and the mediator
connected, a successful `findTextNext` leaves both timers stopped and has
handed one snapshot (four calls) to `gui` before it returns. -/
theorem findTextNext_refresh_counterexample :
    (bulkStart 0 { demo fooScreen blankScreen with connected := true }).bulk_timer1.isActive
      = true ∧
    (findTextNext recScreen plainSearch "foo" true true false
        (bulkStart 0 { demo fooScreen blankScreen with connected := true })).map
      (fun r => (r.found, r.em.bulk_timer1.isActive, r.em.bulk_timer2.isActive,
        r.em.out.length)) = some (true, false, false, 4) := by
  decide

/-- C13, amended: every successful `findTextNext` refreshes through
`showBulk`: afterwards both timers are stopped, and what `gui` has received has
grown by exactly one snapshot of the active screen when connected and by
nothing when not connected. -/
theorem findTextNext_refresh (S : TEScreen σ ι) (Q : QStringSearch) (str : String)
    (forward cs re : Bool) (m : TEmulation σ ι δ) (r : FindResult σ ι δ)
    (h : findTextNext S Q str forward cs re m = some r) (hf : r.found = true) :
    r.em.bulk_timer1.isActive = false ∧ r.em.bulk_timer2.isActive = false ∧
    (m.connected = true → r.em.out = m.out ++ snapshotOf S r.em.cur) ∧
    (m.connected = false → r.em.out = m.out) := by
  obtain ⟨k, hem⟩ := findTextNext_found S Q str forward cs re m r h hf
  have hcur : r.em.cur = (({ m with m_findPos := k } : TEmulation σ ι δ).onScr
      (S.setHistCursor (min k (S.getHistLines m.cur)))).cur := by
    rw [hem, findHit_eq, cur_showBulk]
  rw [hcur, hem, findHit_eq, showBulk_eq]
  refine ⟨rfl, rfl, ?_, ?_⟩
  · intro hc
    simp [connected_onScr, out_onScr, hc]
  · intro hc
    simp [connected_onScr, out_onScr, hc]

/-- C13, amended, evaluated: connected and with both timers running, the
search for `foo` stops both timers and sends the snapshot with the scroll
position at the match. -/
theorem findTextNext_refresh_witness :
    ∃ r, findTextNext recScreen plainSearch "foo" true true false
        (bulkStart 0 { demo fooScreen blankScreen with connected := true }) = some r ∧
      r.em.bulk_timer1.isActive = false ∧ r.em.bulk_timer2.isActive = false ∧
      r.em.out = [.setImage ["foo", "bar foo", "baz"] 0 80, .setCursorPos 0 0,
        .setLineWrapped [], .setScroll 0 3] :=
  ⟨_, rfl,
    (findTextNext_refresh recScreen plainSearch "foo" true true false
      (bulkStart 0 { demo fooScreen blankScreen with connected := true }) _ rfl rfl).1,
    (findTextNext_refresh recScreen plainSearch "foo" true true false
      (bulkStart 0 { demo fooScreen blankScreen with connected := true }) _ rfl rfl).2.1,
    (findTextNext_refresh recScreen plainSearch "foo" true true false
      (bulkStart 0 { demo fooScreen blankScreen with connected := true }) _ rfl rfl).2.2.1 rfl⟩

end Search

section Switching

variable {σ ι δ : Type}

/-- C14: `setScreen(n)` makes the buffer number `n mod 2` the active one, for
every `n`, negative or above 1.  When that buffer was not the active one, the
previously active buffer receives `setBusySelecting(false)` and nothing else
changes; when it was the active one already, the state stays as it was, so no
`setBusySelecting` is sent.  Hence a `setScreen(k)` right after `setScreen(n)`
with `k` and `n` of equal parity changes nothing. -/
theorem setScreen_switch (S : TEScreen σ ι) (n : Int) (m : TEmulation σ ι δ) :
    (((setScreen S n m).scr : Nat) : Int) = n % 2 ∧
    ((setScreen S n m).scr ≠ m.scr →
      setScreen S n m =
        ({ m with scr := (setScreen S n m).scr } : TEmulation σ ι δ).setScreenAt m.scr
          (S.setBusySelecting false (m.screen m.scr))) ∧
    ((setScreen S n m).scr = m.scr → setScreen S n m = m) ∧
    (∀ k : Int, k % 2 = n % 2 → setScreen S k (setScreen S n m) = setScreen S n m) := by
  obtain ⟨s0, s1, sc, co, li, de, fp, t1, t2, out⟩ := m
  have hn : n % 2 = 0 ∨ n % 2 = 1 := by omega
  refine ⟨?_, ?_, ?_, ?_⟩
  · rcases hn with h | h <;> fin_cases sc <;>
      simp [setScreen, TEmulation.setScreenAt, h]
  · rcases hn with h | h <;> fin_cases sc <;>
      simp [setScreen, TEmulation.setScreenAt, TEmulation.screen, h]
  · rcases hn with h | h <;> fin_cases sc <;>
      simp [setScreen, TEmulation.setScreenAt, h]
  · intro k hk
    rw [← hk] at hn
    rcases hn with h | h <;> fin_cases sc <;>
      simp [setScreen, TEmulation.setScreenAt, TEmulation.screen, h, ← hk]

/-- C14, evaluated on recording screens: `setScreen(-1)` activates buffer 1
and sends `setBusySelecting(false)` to buffer 0; `setScreen(3)` right after
sends nothing more. -/
theorem setScreen_switch_witness :
    (setScreen recScreen (-1) (demo blankScreen blankScreen)).scr = 1 ∧
    (setScreen recScreen (-1) (demo blankScreen blankScreen)).screen0.calls
      = [.setBusySelecting false] ∧
    setScreen recScreen 3 (setScreen recScreen (-1) (demo blankScreen blankScreen))
      = setScreen recScreen (-1) (demo blankScreen blankScreen) :=
  ⟨by decide, by decide,
    (setScreen_switch recScreen (-1) (demo blankScreen blankScreen)).2.2.2 3 (by decide)⟩

end Switching

section Feed

variable {σ ι δ : Type}

theorem screen0_onScr (m : TEmulation σ ι δ) (f : σ → σ) :
    (m.onScr f).screen0 = if m.scr = 0 then f m.screen0 else m.screen0 := by
  unfold TEmulation.onScr TEmulation.setScreenAt TEmulation.cur TEmulation.screen
  split <;> simp_all

theorem screen1_onScr (m : TEmulation σ ι δ) (f : σ → σ) :
    (m.onScr f).screen1 = if m.scr = 0 then m.screen1 else f m.screen1 := by
  unfold TEmulation.onScr TEmulation.setScreenAt TEmulation.cur TEmulation.screen
  split <;> simp_all

/-- The screens after a character depend on the screens before it only. -/
theorem onRcvChar_screens (S : TEScreen σ ι) (c : Int) (m1 m2 : TEmulation σ ι δ)
    (h : m1.screen0 = m2.screen0 ∧ m1.screen1 = m2.screen1 ∧ m1.scr = m2.scr) :
    (onRcvChar S c m1).screen0 = (onRcvChar S c m2).screen0 ∧
    (onRcvChar S c m1).screen1 = (onRcvChar S c m2).screen1 ∧
    (onRcvChar S c m1).scr = (onRcvChar S c m2).scr := by
  obtain ⟨h0, h1, hs⟩ := h
  unfold onRcvChar
  simp only
  split_ifs <;>
    simp [screen0_onScr, screen1_onScr, scr_onScr, TEmulation.send, h0, h1, hs]

theorem foldl_onRcvChar_screens (S : TEScreen σ ι) (cs : List Int) (m1 m2 : TEmulation σ ι δ)
    (h : m1.screen0 = m2.screen0 ∧ m1.screen1 = m2.screen1 ∧ m1.scr = m2.scr) :
    (cs.foldl (fun m c => onRcvChar S c m) m1).screen0
      = (cs.foldl (fun m c => onRcvChar S c m) m2).screen0 ∧
    (cs.foldl (fun m c => onRcvChar S c m) m1).screen1
      = (cs.foldl (fun m c => onRcvChar S c m) m2).screen1 ∧
    (cs.foldl (fun m c => onRcvChar S c m) m1).scr
      = (cs.foldl (fun m c => onRcvChar S c m) m2).scr := by
  induction cs generalizing m1 m2 with
  | nil => exact h
  | cons c cs ih => exact ih _ _ (onRcvChar_screens S c m1 m2 h)

/-- What a character leaves of the members that are no screen. -/
theorem onRcvChar_rest (S : TEScreen σ ι) (c : Int) (m : TEmulation σ ι δ) :
    (onRcvChar S c m).bulk_timer1 = m.bulk_timer1 ∧
    (onRcvChar S c m).bulk_timer2 = m.bulk_timer2 ∧
    (onRcvChar S c m).decoder = m.decoder := by
  unfold onRcvChar
  simp only
  split_ifs <;>
    simp [TEmulation.onScr, TEmulation.setScreenAt, TEmulation.send] <;>
    split <;> simp

theorem foldl_onRcvChar_rest (S : TEScreen σ ι) (cs : List Int) (m : TEmulation σ ι δ) :
    (cs.foldl (fun m c => onRcvChar S c m) m).bulk_timer1 = m.bulk_timer1 ∧
    (cs.foldl (fun m c => onRcvChar S c m) m).bulk_timer2 = m.bulk_timer2 ∧
    (cs.foldl (fun m c => onRcvChar S c m) m).decoder = m.decoder := by
  induction cs generalizing m with
  | nil => exact ⟨rfl, rfl, rfl⟩
  | cons c cs ih =>
    obtain ⟨a, b, d⟩ := ih (onRcvChar S c m)
    obtain ⟨a2, b2, d2⟩ := onRcvChar_rest S c m
    exact ⟨a.trans a2, b.trans b2, d.trans d2⟩

/-- The dispatch loop adds bell notifications to the log and nothing else. -/
theorem out_foldl_onRcvChar (S : TEScreen σ ι) (cs : List Int) (m : TEmulation σ ι δ) :
    ∃ l, (cs.foldl (fun m c => onRcvChar S c m) m).out = m.out ++ l ∧
      ∀ o ∈ l, o = Output.notifySessionState .NOTIFYBELL := by
  induction cs generalizing m with
  | nil => exact ⟨[], by simp, by simp⟩
  | cons c cs ih =>
    obtain ⟨l, hl, hb⟩ := ih (onRcvChar S c m)
    rcases out_onRcvChar S c m with h | h
    · exact ⟨l, by rw [List.foldl_cons, hl, h], hb⟩
    · refine ⟨.notifySessionState .NOTIFYBELL :: l, by rw [List.foldl_cons, hl, h]; simp, ?_⟩
      intro o ho
      rcases List.mem_cons.mp ho with h2 | h2
      · exact h2
      · exact hb o h2

/-- The z-modem scan changes the log only, and adds `zmodemDetected` signals
only. -/
theorem zmodemScan_effect (text : List Nat) (is : List Nat) (m : TEmulation σ ι δ) :
    ∃ l, is.foldl (fun m i => zmodemCheck text i m) m = { m with out := m.out ++ l } ∧
      ∀ o ∈ l, o = Output.zmodemDetected := by
  induction is generalizing m with
  | nil => exact ⟨[], by simp, by simp⟩
  | cons i is ih =>
    rw [List.foldl_cons]
    by_cases hz : text.getD i 0 = 0o30 ∧ ((text.length : Int) - (i : Int) - 1 > 3 ∧
        strncmp (text.drop (i + 1)) zmodemMarker 3 = 0)
    · have hstep : zmodemCheck text i m = { m with out := m.out ++ [.zmodemDetected] } := by
        unfold zmodemCheck
        simp only [hz.1, hz.2, and_self, if_true]
        rfl
      obtain ⟨l, hl, hb⟩ := ih (zmodemCheck text i m)
      refine ⟨.zmodemDetected :: l, by rw [hl, hstep]; simp, ?_⟩
      intro o ho
      rcases List.mem_cons.mp ho with h2 | h2
      · exact h2
      · exact hb o h2
    · have hstep : zmodemCheck text i m = m := by
        unfold zmodemCheck
        by_cases h1 : text.getD i 0 = 0o30
        · have h2 : ¬ ((text.length : Int) - (i : Int) - 1 > 3 ∧
              strncmp (text.drop (i + 1)) zmodemMarker 3 = 0) := fun h => hz ⟨h1, h⟩
          simp only [h1, if_true, h2, if_false]
        · simp only [h1, if_false]
      rw [hstep]
      exact ih m

/-- The log after `onRcvBlock`: what was there, the activity notification,
then bell and `zmodemDetected` signals only. -/
theorem onRcvBlock_out (S : TEScreen σ ι) (D : QTextDecoder δ) (now : Nat) (text : List Nat)
    (m : TEmulation σ ι δ) :
    ∃ rest, (onRcvBlock S D now text m).out =
        m.out ++ Output.notifySessionState .NOTIFYACTIVITY :: rest ∧
      ∀ o ∈ rest, o = Output.notifySessionState .NOTIFYBELL ∨ o = Output.zmodemDetected := by
  unfold onRcvBlock
  simp only
  obtain ⟨lz, hz, hzb⟩ := zmodemScan_effect text (List.range text.length)
    (List.foldl (fun m c => onRcvChar S c m)
      { bulkStart now (m.send (.notifySessionState .NOTIFYACTIVITY)) with
        decoder := (D.toUnicode
          (bulkStart now (m.send (.notifySessionState .NOTIFYACTIVITY))).decoder text).2 }
      (D.toUnicode
          (bulkStart now (m.send (.notifySessionState .NOTIFYACTIVITY))).decoder text).1)
  obtain ⟨lb, hb, hbb⟩ := out_foldl_onRcvChar S
    (D.toUnicode (bulkStart now (m.send (.notifySessionState .NOTIFYACTIVITY))).decoder text).1
    ({ bulkStart now (m.send (.notifySessionState .NOTIFYACTIVITY)) with
        decoder := (D.toUnicode
          (bulkStart now (m.send (.notifySessionState .NOTIFYACTIVITY))).decoder text).2 }
      : TEmulation σ ι δ)
  refine ⟨lb ++ lz, ?_, ?_⟩
  · rw [hz]
    simp only
    rw [hb, bulkStart_eq]
    simp [TEmulation.send]
  · intro o ho
    rcases List.mem_append.mp ho with h | h
    · exact Or.inl (hbb o h)
    · exact Or.inr (hzb o h)

/-- C15: `onRcvBlock` is, in this order, the activity notification,
`bulkStart`, one call of the decoder on the whole block, `onRcvChar` for each
decoded character in the decoder's order, and the z-modem scan.  So the log
grows by the activity notification first and by no second one; the timers are
those `bulkStart` leaves; the decoder keeps the state of its one call; and the
screens are those of the fold of `onRcvChar` over the decoded characters. -/
theorem onRcvBlock_order (S : TEScreen σ ι) (D : QTextDecoder δ) (now : Nat) (text : List Nat)
    (m : TEmulation σ ι δ) :
    onRcvBlock S D now text m =
      (List.range text.length).foldl (fun m i => zmodemCheck text i m)
        ((D.toUnicode m.decoder text).1.foldl (fun m c => onRcvChar S c m)
          { bulkStart now (m.send (.notifySessionState .NOTIFYACTIVITY)) with
            decoder := (D.toUnicode m.decoder text).2 }) ∧
    (∃ rest, (onRcvBlock S D now text m).out =
        m.out ++ Output.notifySessionState .NOTIFYACTIVITY :: rest ∧
      Output.notifySessionState .NOTIFYACTIVITY ∉ rest) ∧
    (onRcvBlock S D now text m).bulk_timer1 = (bulkStart now m).bulk_timer1 ∧
    (onRcvBlock S D now text m).bulk_timer2 = (bulkStart now m).bulk_timer2 ∧
    (onRcvBlock S D now text m).decoder = (D.toUnicode m.decoder text).2 ∧
    (onRcvBlock S D now text m).screen0 =
      ((D.toUnicode m.decoder text).1.foldl (fun m c => onRcvChar S c m) m).screen0 ∧
    (onRcvBlock S D now text m).screen1 =
      ((D.toUnicode m.decoder text).1.foldl (fun m c => onRcvChar S c m) m).screen1 ∧
    (onRcvBlock S D now text m).scr =
      ((D.toUnicode m.decoder text).1.foldl (fun m c => onRcvChar S c m) m).scr := by
  have hdec : (bulkStart now (m.send (.notifySessionState .NOTIFYACTIVITY))).decoder
      = m.decoder := by rw [bulkStart_eq]; rfl
  have heq : onRcvBlock S D now text m =
      (List.range text.length).foldl (fun m i => zmodemCheck text i m)
        ((D.toUnicode m.decoder text).1.foldl (fun m c => onRcvChar S c m)
          { bulkStart now (m.send (.notifySessionState .NOTIFYACTIVITY)) with
            decoder := (D.toUnicode m.decoder text).2 }) := by
    unfold onRcvBlock
    simp only [hdec]
  refine ⟨heq, ?_, ?_⟩
  · obtain ⟨rest, hout, hrest⟩ := onRcvBlock_out S D now text m
    refine ⟨rest, hout, ?_⟩
    intro hin
    rcases hrest _ hin with h | h <;> cases h
  · obtain ⟨lz, hz, _⟩ := zmodemScan_effect text (List.range text.length)
      ((D.toUnicode m.decoder text).1.foldl (fun m c => onRcvChar S c m)
        ({ bulkStart now (m.send (.notifySessionState .NOTIFYACTIVITY)) with
          decoder := (D.toUnicode m.decoder text).2 } : TEmulation σ ι δ))
    obtain ⟨a, b, d⟩ := foldl_onRcvChar_rest S (D.toUnicode m.decoder text).1
      ({ bulkStart now (m.send (.notifySessionState .NOTIFYACTIVITY)) with
          decoder := (D.toUnicode m.decoder text).2 } : TEmulation σ ι δ)
    obtain ⟨e, f, g⟩ := foldl_onRcvChar_screens S (D.toUnicode m.decoder text).1
      ({ bulkStart now (m.send (.notifySessionState .NOTIFYACTIVITY)) with
          decoder := (D.toUnicode m.decoder text).2 } : TEmulation σ ι δ) m
      (by rw [bulkStart_eq]; exact ⟨rfl, rfl, rfl⟩)
    rw [heq, hz]
    refine ⟨?_, ?_, ?_, ?_, ?_, ?_⟩
    · simp only
      rw [a, bulkStart_eq, bulkStart_eq]
    · simp only
      rw [b, bulkStart_eq, bulkStart_eq]
      rfl
    · simp only
      rw [d]
    · exact e
    · exact f
    · exact g

/-- The connection flag plays no part in `onRcvBlock`: the same block does the
same whether connected or not. -/
theorem onRcvChar_connected (S : TEScreen σ ι) (x : Int) (c : Bool) (m : TEmulation σ ι δ) :
    onRcvChar S x { m with connected := c } = { onRcvChar S x m with connected := c } := by
  unfold onRcvChar
  simp only
  split_ifs <;>
    simp only [TEmulation.onScr, TEmulation.setScreenAt, TEmulation.send, TEmulation.cur,
      TEmulation.screen] <;>
    split <;> rfl

theorem zmodemCheck_connected (text : List Nat) (i : Nat) (c : Bool) (m : TEmulation σ ι δ) :
    zmodemCheck text i { m with connected := c } = { zmodemCheck text i m with connected := c } := by
  unfold zmodemCheck
  simp only
  split_ifs <;> rfl

theorem foldl_commute {α β : Type} (f : β → α → β) (g : β → β)
    (h : ∀ b a, f (g b) a = g (f b a)) (l : List α) (b : β) :
    l.foldl f (g b) = g (l.foldl f b) := by
  induction l generalizing b with
  | nil => rfl
  | cons a l ih => rw [List.foldl_cons, List.foldl_cons, h, ih]

theorem onRcvBlock_connected (S : TEScreen σ ι) (D : QTextDecoder δ) (now : Nat)
    (text : List Nat) (c : Bool) (m : TEmulation σ ι δ) :
    onRcvBlock S D now text { m with connected := c } =
      { onRcvBlock S D now text m with connected := c } := by
  have hb : ∀ m2 : TEmulation σ ι δ,
      bulkStart now { m2 with connected := c } = { bulkStart now m2 with connected := c } := by
    intro m2
    rw [bulkStart_eq, bulkStart_eq]
  unfold onRcvBlock
  simp only
  have h1 : ({ m with connected := c } : TEmulation σ ι δ).send
      (.notifySessionState .NOTIFYACTIVITY)
      = { m.send (.notifySessionState .NOTIFYACTIVITY) with connected := c } := rfl
  rw [h1, hb]
  rw [← foldl_commute (fun m i => zmodemCheck text i m)
    (fun m2 : TEmulation σ ι δ => { m2 with connected := c })
    (fun b a => zmodemCheck_connected text a c b)]
  rw [← foldl_commute (fun m x => onRcvChar S x m)
    (fun m2 : TEmulation σ ι δ => { m2 with connected := c })
    (fun b a => onRcvChar_connected S a c b)]

/-- C18, refuted as stated: not connected, the block with the single byte
`0x07` raises the activity notification and the bell. -/
theorem onRcvBlock_disconnected_counterexample :
    (demo blankScreen blankScreen).connected = false ∧
    (onRcvBlock recScreen latin1 0 [0x07] (demo blankScreen blankScreen)).out =
      [.notifySessionState .NOTIFYACTIVITY, .notifySessionState .NOTIFYBELL] ∧
    (onRcvBlock recScreen latin1 0 [0x18, 0x42, 0x30, 0x30, 0x0D]
        (demo blankScreen blankScreen)).out =
      [.notifySessionState .NOTIFYACTIVITY, .zmodemDetected] :=
  ⟨rfl, rfl, rfl⟩

/-- C18, amended: fed while not connected, `onRcvBlock` applies the dispatched
operations to the screens and hands nothing to `gui`, but it raises its
notifications all the same: the log grows by the activity notification first
and then by bell and `zmodemDetected` signals only, and apart from the
connection flag the outcome is the one of the same call made connected. -/
theorem onRcvBlock_disconnected (S : TEScreen σ ι) (D : QTextDecoder δ) (now : Nat)
    (text : List Nat) (m : TEmulation σ ι δ) (hc : m.connected = false) :
    (∃ rest, (onRcvBlock S D now text m).out =
        m.out ++ Output.notifySessionState .NOTIFYACTIVITY :: rest ∧
      ∀ o ∈ rest, o = Output.notifySessionState .NOTIFYBELL ∨ o = Output.zmodemDetected) ∧
    (onRcvBlock S D now text m).screen0 =
      ((D.toUnicode m.decoder text).1.foldl (fun m c => onRcvChar S c m) m).screen0 ∧
    (onRcvBlock S D now text m).screen1 =
      ((D.toUnicode m.decoder text).1.foldl (fun m c => onRcvChar S c m) m).screen1 ∧
    (onRcvBlock S D now text m).connected = false ∧
    onRcvBlock S D now text { m with connected := true } =
      { onRcvBlock S D now text m with connected := true } := by
  have hdec : (bulkStart now (m.send (.notifySessionState .NOTIFYACTIVITY))).decoder
      = m.decoder := by rw [bulkStart_eq]; rfl
  obtain ⟨lz, hz, _⟩ := zmodemScan_effect text (List.range text.length)
    ((D.toUnicode m.decoder text).1.foldl (fun m c => onRcvChar S c m)
      ({ bulkStart now (m.send (.notifySessionState .NOTIFYACTIVITY)) with
        decoder := (D.toUnicode m.decoder text).2 } : TEmulation σ ι δ))
  obtain ⟨e, f, _⟩ := foldl_onRcvChar_screens S (D.toUnicode m.decoder text).1
    ({ bulkStart now (m.send (.notifySessionState .NOTIFYACTIVITY)) with
        decoder := (D.toUnicode m.decoder text).2 } : TEmulation σ ι δ) m
    (by rw [bulkStart_eq]; exact ⟨rfl, rfl, rfl⟩)
  have heq : onRcvBlock S D now text m =
      (List.range text.length).foldl (fun m i => zmodemCheck text i m)
        ((D.toUnicode m.decoder text).1.foldl (fun m c => onRcvChar S c m)
          { bulkStart now (m.send (.notifySessionState .NOTIFYACTIVITY)) with
            decoder := (D.toUnicode m.decoder text).2 }) := by
    unfold onRcvBlock
    simp only [hdec]
  refine ⟨onRcvBlock_out S D now text m, ?_, ?_, ?_, onRcvBlock_connected S D now text true m⟩
  · rw [heq, hz]; exact e
  · rw [heq, hz]; exact f
  · have h2 := onRcvBlock_connected S D now text false m
    have h3 : ({ m with connected := false } : TEmulation σ ι δ) = m := by
      cases m; simp only at hc; subst hc; rfl
    rw [h3] at h2
    rw [h2]

/-- C18, amended, evaluated: not connected, the block `BEL 'A'` raises the
activity notification and the bell, and the screen receives
`ShowCharacter('A')`. -/
theorem onRcvBlock_disconnected_witness :
    (onRcvBlock recScreen latin1 0 [0x07, 0x41] (demo blankScreen blankScreen)).screen0.calls
      = [.ShowCharacter 0x41] ∧
    ∃ rest, (onRcvBlock recScreen latin1 0 [0x07, 0x41] (demo blankScreen blankScreen)).out =
        (demo blankScreen blankScreen).out ++ Output.notifySessionState .NOTIFYACTIVITY :: rest ∧
      ∀ o ∈ rest, o = Output.notifySessionState .NOTIFYBELL ∨ o = Output.zmodemDetected :=
  ⟨by decide,
    (onRcvBlock_disconnected recScreen latin1 0 [0x07, 0x41] (demo blankScreen blankScreen)
      rfl).1⟩

end Feed

section Selection

variable {σ ι δ : Type}

theorem screen_setScreenAt_other (m : TEmulation σ ι δ) (i j : Fin 2) (s : σ) (h : i ≠ j) :
    (m.setScreenAt j s).screen i = m.screen i := by
  unfold TEmulation.setScreenAt TEmulation.screen
  fin_cases i <;> fin_cases j <;> simp_all

theorem screen_showBulk (S : TEScreen σ ι) (m : TEmulation σ ι δ) (i : Fin 2) :
    (showBulk S m).screen i = m.screen i := by
  rw [showBulk_eq]; rfl

/-- A call on the active screen followed by `showBulk`, while connected. -/
theorem forwardedAndFlushed (S : TEScreen σ ι) (f : σ → σ) (m : TEmulation σ ι δ)
    (hc : m.connected = true) : ForwardedAndFlushed S f m (showBulk S (m.onScr f)) := by
  refine ⟨?_, ?_, ?_, ?_, ?_, ?_⟩
  · rw [cur_showBulk, cur_onScr]
  · intro i hi
    rw [screen_showBulk]
    exact screen_setScreenAt_other m i m.scr (f m.cur) hi
  · rw [showBulk_eq]; exact scr_onScr m f
  · rw [showBulk_eq]; rfl
  · rw [showBulk_eq]; rfl
  · rw [showBulk_eq]
    simp [connected_onScr, out_onScr, cur_onScr, hc]

/-- C16, refuted as stated: connected and with both timers running, a
selection begin leaves both timers stopped and has handed one snapshot (four
calls) to `gui` before it returns. -/
theorem selection_refresh_counterexample :
    (bulkStart 0 { demo fooScreen blankScreen with connected := true }).bulk_timer1.isActive
      = true ∧
    (onSelectionBegin recScreen 1 2 false
      (bulkStart 0 { demo fooScreen blankScreen with connected := true })).bulk_timer1.isActive
      = false ∧
    (onSelectionBegin recScreen 1 2 false
      (bulkStart 0 { demo fooScreen blankScreen with connected := true })).bulk_timer2.isActive
      = false ∧
    (onSelectionBegin recScreen 1 2 false
      (bulkStart 0 { demo fooScreen blankScreen with connected := true })).out.length = 4 := by
  decide

/-- C16, amended: when connected, a selection begin, extend or clear request
is passed with its arguments unchanged to the active screen only, and then
`showBulk` runs: both timers are stopped and one snapshot of the active screen
goes to `gui` before the call returns.  When not connected, the request
changes nothing. -/
theorem selection_forwarding (S : TEScreen σ ι) (x y : Int) (columnmode : Bool)
    (m : TEmulation σ ι δ) :
    (m.connected = true →
      ForwardedAndFlushed S (S.setSelBeginXY x y columnmode) m
        (onSelectionBegin S x y columnmode m) ∧
      ForwardedAndFlushed S (S.setSelExtentXY x y) m (onSelectionExtend S x y m) ∧
      ForwardedAndFlushed S S.clearSelection m (clearSelection S m)) ∧
    (m.connected = false →
      onSelectionBegin S x y columnmode m = m ∧ onSelectionExtend S x y m = m ∧
      clearSelection S m = m) := by
  constructor
  · intro hc
    refine ⟨?_, ?_, ?_⟩
    · have : onSelectionBegin S x y columnmode m
          = showBulk S (m.onScr (S.setSelBeginXY x y columnmode)) := by
        simp [onSelectionBegin, hc]
      rw [this]; exact forwardedAndFlushed S _ m hc
    · have : onSelectionExtend S x y m = showBulk S (m.onScr (S.setSelExtentXY x y)) := by
        simp [onSelectionExtend, hc]
      rw [this]; exact forwardedAndFlushed S _ m hc
    · have : clearSelection S m = showBulk S (m.onScr S.clearSelection) := by
        simp [clearSelection, hc]
      rw [this]; exact forwardedAndFlushed S _ m hc
  · intro hc
    simp [onSelectionBegin, onSelectionExtend, clearSelection, hc]

/-- C16, amended, evaluated on recording screens: connected, the selection
begin at (1, 2) reaches screen 0 only and one snapshot goes out; not connected,
nothing happens. -/
theorem selection_forwarding_witness :
    (onSelectionBegin recScreen 1 2 false
      { demo fooScreen blankScreen with connected := true }).screen0.calls
      = [.setSelBeginXY 1 2 false] ∧
    ForwardedAndFlushed recScreen (recScreen.setSelBeginXY 1 2 false)
      { demo fooScreen blankScreen with connected := true }
      (onSelectionBegin recScreen 1 2 false
        { demo fooScreen blankScreen with connected := true }) ∧
    onSelectionBegin recScreen 1 2 false (demo fooScreen blankScreen)
      = demo fooScreen blankScreen :=
  ⟨by decide,
    ((selection_forwarding recScreen 1 2 false
      { demo fooScreen blankScreen with connected := true }).1 rfl).1,
    ((selection_forwarding recScreen 1 2 false (demo fooScreen blankScreen)).2 rfl).1⟩

/-- C17, refuted as stated: after `setConnect(false)`, `onSelectionBegin(1, 2,
false)`, `setConnect(true)` the active recording screen has received no call
at all, so it is not the screen with the selection begun at (1, 2), and the
snapshot sent on reconnecting is the one of the unchanged screen. -/
theorem selection_while_disconnected_counterexample :
    (setConnect recScreen true (onSelectionBegin recScreen 1 2 false
      (setConnect recScreen false { demo fooScreen blankScreen with connected := true }))).cur.calls
      = [] ∧
    (setConnect recScreen true (onSelectionBegin recScreen 1 2 false
      (setConnect recScreen false { demo fooScreen blankScreen with connected := true }))).cur
      ≠ recScreen.setSelBeginXY 1 2 false
          ({ demo fooScreen blankScreen with connected := true } :
            TEmulation RecScreen (List String) Unit).cur ∧
    (setConnect recScreen true (onSelectionBegin recScreen 1 2 false
      (setConnect recScreen false { demo fooScreen blankScreen with connected := true }))).out
      = snapshotOf recScreen fooScreen := by
  refine ⟨by decide, by decide, rfl⟩

/-- C17, amended: in the sequence `setConnect(false)`, `onSelectionBegin(x,
y, columnmode)`, `setConnect(true)` the selection request is dropped by the
guard `if (!connected) return`: it changes nothing, both screens end as they
were before the sequence, and the snapshot sent by the `showBulk` of the
reconnection is taken from the unchanged active screen. -/
theorem selection_while_disconnected (S : TEScreen σ ι) (x y : Int) (columnmode : Bool)
    (m : TEmulation σ ι δ) :
    onSelectionBegin S x y columnmode (setConnect S false m) = setConnect S false m ∧
    setConnect S true (onSelectionBegin S x y columnmode (setConnect S false m))
      = setConnect S true m ∧
    (setConnect S true (onSelectionBegin S x y columnmode (setConnect S false m))).screen0
      = m.screen0 ∧
    (setConnect S true (onSelectionBegin S x y columnmode (setConnect S false m))).screen1
      = m.screen1 ∧
    (setConnect S true (onSelectionBegin S x y columnmode (setConnect S false m))).out
      = m.out ++ snapshotOf S m.cur := by
  have h1 : onSelectionBegin S x y columnmode (setConnect S false m) = setConnect S false m := by
    simp [onSelectionBegin, setConnect]
  have h2 : setConnect S true (setConnect S false m) = setConnect S true m := by
    simp [setConnect]
  rw [h1, h2]
  refine ⟨rfl, rfl, ?_, ?_, ?_⟩
  · simp [setConnect, showBulk_eq]
  · simp [setConnect, showBulk_eq]
  · simp [setConnect, showBulk_eq, TEmulation.cur, TEmulation.screen]

end Selection

section Keyboard

variable {σ ι δ : Type}

/-- C19, the code at the failing input: for a key event with empty `text()`
the history cursor and both screens stay as they are, and without the listen
flag nothing is sent; but with the listen flag set, after the `NOTIFYNORMAL`
notification the branch `else if (ev->text().toAscii().constData()>0)` is
taken whenever the data pointer compares above null, and a block of length 1
is sent.  With a byte array whose data pointer is not null (as `QByteArray`
keeps it) the block sent holds the single byte 0. -/
theorem onKeyPress_empty_text (S : TEScreen σ ι) (B : QStringBytes) (m : TEmulation σ ι δ) :
    onKeyPress S B { text := [] } { m with listenToKeyPress := false }
      = { m with listenToKeyPress := false } ∧
    (onKeyPress S B { text := [] } { m with listenToKeyPress := true }).out =
      m.out ++ Output.notifySessionState .NOTIFYNORMAL ::
        (if B.constDataAboveNull (B.toAscii []) then
          [Output.sndBlock [(B.toAscii []).getD 0 0] 1]
        else []) ∧
    (onKeyPress S B { text := [] } { m with listenToKeyPress := true }).screen0 = m.screen0 ∧
    (onKeyPress S B { text := [] } { m with listenToKeyPress := true }).screen1 = m.screen1 ∧
    (onKeyPress recScreen asciiBytes { text := [] }
      { demo fooScreen blankScreen with listenToKeyPress := true }).out =
      [.notifySessionState .NOTIFYNORMAL, .sndBlock [0] 1] := by
  refine ⟨?_, ?_, ?_, ?_, rfl⟩
  · simp [onKeyPress]
  · cases h : B.constDataAboveNull (B.toAscii []) <;>
      simp [onKeyPress, TEmulation.send, h]
  · cases h : B.constDataAboveNull (B.toAscii []) <;>
      simp [onKeyPress, TEmulation.send, h]
  · cases h : B.constDataAboveNull (B.toAscii []) <;>
      simp [onKeyPress, TEmulation.send, h]

end Keyboard

section Geometry

variable {σ ι δ : Type}

/-- C20: `onImageSizeChange(lines, columns)` calls `resizeImage(lines,
columns)` on `screen[0]` and on `screen[1]`, whichever is active and whether
connected or not; on screens whose `resizeImage` sets the size it is given,
both buffers report `lines` lines and `columns` columns afterwards. -/
theorem onImageSizeChange_resizes_both (S : TEScreen σ ι) (lines columns : Int)
    (m : TEmulation σ ι δ)
    (hresize : ∀ (l c : Int) (s : σ),
      S.getLines (S.resizeImage l c s) = l ∧ S.getColumns (S.resizeImage l c s) = c) :
    (onImageSizeChange S lines columns m).screen0 = S.resizeImage lines columns m.screen0 ∧
    (onImageSizeChange S lines columns m).screen1 = S.resizeImage lines columns m.screen1 ∧
    S.getLines (onImageSizeChange S lines columns m).screen0 = lines ∧
    S.getColumns (onImageSizeChange S lines columns m).screen0 = columns ∧
    S.getLines (onImageSizeChange S lines columns m).screen1 = lines ∧
    S.getColumns (onImageSizeChange S lines columns m).screen1 = columns := by
  have h0 : (onImageSizeChange S lines columns m).screen0
      = S.resizeImage lines columns m.screen0 := by
    unfold onImageSizeChange
    cases hc : m.connected <;> simp [hc, showBulk_eq, TEmulation.send]
  have h1 : (onImageSizeChange S lines columns m).screen1
      = S.resizeImage lines columns m.screen1 := by
    unfold onImageSizeChange
    cases hc : m.connected <;> simp [hc, showBulk_eq, TEmulation.send]
  rw [h0, h1]
  exact ⟨rfl, rfl, (hresize _ _ _).1, (hresize _ _ _).2, (hresize _ _ _).1, (hresize _ _ _).2⟩

/-- C20, evaluated: two recording screens of 24 lines and 80 columns, the
second one active; after `onImageSizeChange(30, 100)` both have 30 lines and
100 columns. -/
theorem onImageSizeChange_resizes_both_witness :
    (blankScreen.lines, blankScreen.columns) = (24, 80) ∧
    recScreen.getLines (onImageSizeChange recScreen 30 100
      (setScreen recScreen 1 (demo blankScreen blankScreen))).screen0 = 30 ∧
    recScreen.getColumns (onImageSizeChange recScreen 30 100
      (setScreen recScreen 1 (demo blankScreen blankScreen))).screen0 = 100 ∧
    recScreen.getLines (onImageSizeChange recScreen 30 100
      (setScreen recScreen 1 (demo blankScreen blankScreen))).screen1 = 30 ∧
    recScreen.getColumns (onImageSizeChange recScreen 30 100
      (setScreen recScreen 1 (demo blankScreen blankScreen))).screen1 = 100 :=
  ⟨by decide,
    (onImageSizeChange_resizes_both recScreen 30 100
      (setScreen recScreen 1 (demo blankScreen blankScreen))
      (fun _ _ _ => ⟨rfl, rfl⟩)).2.2⟩

/-- C22, refuted as stated: not connected and with both timers running (a
block has arrived), `onImageSizeChange` returns with both timers still
active. -/
theorem onImageSizeChange_flush_counterexample :
    (onRcvBlock recScreen latin1 0 [0x41] (demo blankScreen blankScreen)).connected = false ∧
    (onImageSizeChange recScreen 30 100
      (onRcvBlock recScreen latin1 0 [0x41] (demo blankScreen blankScreen))).bulk_timer1.isActive
      = true ∧
    (onImageSizeChange recScreen 30 100
      (onRcvBlock recScreen latin1 0 [0x41] (demo blankScreen blankScreen))).bulk_timer2.isActive
      = true := by
  decide

/-- C22, amended: `onImageSizeChange` runs `showBulk` only when connected.
Connected, both timers are stopped when it returns and `gui` has received one
snapshot of the resized active screen (followed by the `ImageSizeChanged`
signal); not connected, it returns after the two `resizeImage` calls: nothing
is sent and both timers are as they were. -/
theorem onImageSizeChange_flush (S : TEScreen σ ι) (lines columns : Int)
    (m : TEmulation σ ι δ) :
    (m.connected = true →
      (onImageSizeChange S lines columns m).bulk_timer1.isActive = false ∧
      (onImageSizeChange S lines columns m).bulk_timer2.isActive = false ∧
      (onImageSizeChange S lines columns m).out =
        m.out ++ snapshotOf S (S.resizeImage lines columns m.cur) ++
          [.ImageSizeChanged columns lines]) ∧
    (m.connected = false →
      (onImageSizeChange S lines columns m).bulk_timer1 = m.bulk_timer1 ∧
      (onImageSizeChange S lines columns m).bulk_timer2 = m.bulk_timer2 ∧
      (onImageSizeChange S lines columns m).out = m.out) := by
  obtain ⟨s0, s1, sc, co, li, de, fp, t1, t2, out⟩ := m
  constructor
  · intro hc
    simp only at hc
    subst hc
    fin_cases sc <;>
      simp [onImageSizeChange, showBulk_eq, TEmulation.send, TEmulation.cur, TEmulation.screen,
        QTimer.stop, QTimer.isActive]
  · intro hc
    simp only at hc
    subst hc
    simp [onImageSizeChange]

/-- C22, amended, evaluated: connected, the geometry change stops the running
timers and sends the snapshot of the resized screen and the signal. -/
theorem onImageSizeChange_flush_witness :
    (onImageSizeChange recScreen 30 100
      (bulkStart 0 { demo blankScreen blankScreen with connected := true })).bulk_timer1.isActive
      = false ∧
    (onImageSizeChange recScreen 30 100
      { demo blankScreen blankScreen with connected := true }).out =
      [.setImage [] 30 100, .setCursorPos 0 0, .setLineWrapped [], .setScroll 0 0,
       .ImageSizeChanged 100 30] ∧
    (onImageSizeChange recScreen 30 100 (demo blankScreen blankScreen)).out = [] :=
  ⟨((onImageSizeChange_flush recScreen 30 100
      (bulkStart 0 { demo blankScreen blankScreen with connected := true })).1 rfl).1,
    ((onImageSizeChange_flush recScreen 30 100
      { demo blankScreen blankScreen with connected := true }).1 rfl).2.2,
    ((onImageSizeChange_flush recScreen 30 100 (demo blankScreen blankScreen)).2 rfl).2.2⟩

end Geometry

section Connection

variable {σ ι δ : Type}

/-- C21: from a state that is not connected, `setConnect(true)` sets the
connection flag and runs `showBulk` once before it returns: both timers are
stopped, `gui` has received exactly one snapshot of the active screen, and the
screens are as they were.  `setConnect(false)`, from any state, only clears
the flag: nothing is sent and both timers stay as they were. -/
theorem setConnect_flush (S : TEScreen σ ι) (m : TEmulation σ ι δ)
    (hc : m.connected = false) :
    (setConnect S true m).connected = true ∧
    (setConnect S true m).bulk_timer1.isActive = false ∧
    (setConnect S true m).bulk_timer2.isActive = false ∧
    (setConnect S true m).out = m.out ++ snapshotOf S m.cur ∧
    (setConnect S true m).screen0 = m.screen0 ∧
    (setConnect S true m).screen1 = m.screen1 ∧
    setConnect S false m = m ∧
    ∀ m2 : TEmulation σ ι δ,
      setConnect S false m2 = { m2 with connected := false } ∧
      (setConnect S false m2).out = m2.out ∧
      (setConnect S false m2).bulk_timer1 = m2.bulk_timer1 ∧
      (setConnect S false m2).bulk_timer2 = m2.bulk_timer2 := by
  have ht : setConnect S true m = showBulk S { m with connected := true } := by
    simp [setConnect]
  have hf : ∀ m2 : TEmulation σ ι δ, setConnect S false m2 = { m2 with connected := false } := by
    intro m2; simp [setConnect]
  rw [ht, showBulk_eq]
  refine ⟨rfl, rfl, rfl, ?_, rfl, rfl, ?_, ?_⟩
  · simp only [if_true]
    rfl
  · rw [hf]
    cases m
    simp only at hc
    subst hc
    rfl
  · intro m2
    rw [hf]
    exact ⟨rfl, rfl, rfl, rfl⟩

/-- C21, evaluated: a mediator as constructed, with both timers started by a
block, is connected: the timers are stopped and one snapshot goes out;
disconnecting it again sends nothing more. -/
theorem setConnect_flush_witness :
    (setConnect recScreen true
      (onRcvBlock recScreen latin1 0 [] (demo fooScreen blankScreen))).bulk_timer1.isActive
      = false ∧
    (setConnect recScreen true (demo fooScreen blankScreen)).out =
      [] ++ snapshotOf recScreen fooScreen ∧
    setConnect recScreen false (demo fooScreen blankScreen) = demo fooScreen blankScreen :=
  ⟨(setConnect_flush recScreen (onRcvBlock recScreen latin1 0 [] (demo fooScreen blankScreen))
      rfl).2.1,
    (setConnect_flush recScreen (demo fooScreen blankScreen) rfl).2.2.2.1,
    (setConnect_flush recScreen (demo fooScreen blankScreen) rfl).2.2.2.2.2.2.1⟩

end Connection

section Reachable

variable {σ ι δ : Type}

theorem timers_setScreenAt (m : TEmulation σ ι δ) (i : Fin 2) (s : σ) :
    (m.setScreenAt i s).bulk_timer1 = m.bulk_timer1 ∧
    (m.setScreenAt i s).bulk_timer2 = m.bulk_timer2 := by
  unfold TEmulation.setScreenAt
  split <;> exact ⟨rfl, rfl⟩

theorem timersPaired_of_eq (m m2 : TEmulation σ ι δ) (h : TimersPaired m)
    (h1 : m2.bulk_timer1 = m.bulk_timer1) (h2 : m2.bulk_timer2 = m.bulk_timer2) :
    TimersPaired m2 := by
  unfold TimersPaired at h ⊢
  rw [h1, h2]; exact h

/-- After `showBulk` no timer is active. -/
theorem timersPaired_showBulk (S : TEScreen σ ι) (m : TEmulation σ ι δ) :
    TimersPaired (showBulk S m) := by
  unfold TimersPaired
  rw [showBulk_eq]
  rfl

/-- After `bulkStart` both timers are active. -/
theorem timersPaired_bulkStart (now : Nat) (m : TEmulation σ ι δ) :
    TimersPaired (bulkStart now m) := by
  unfold TimersPaired
  rw [bulkStart_eq]
  cases h : m.bulk_timer2.isActive <;> simp [QTimer.isActive, h]
  · exact h

theorem onRcvBlock_timers (S : TEScreen σ ι) (D : QTextDecoder δ) (now : Nat) (text : List Nat)
    (m : TEmulation σ ι δ) :
    (onRcvBlock S D now text m).bulk_timer1 = (bulkStart now m).bulk_timer1 ∧
    (onRcvBlock S D now text m).bulk_timer2 = (bulkStart now m).bulk_timer2 := by
  unfold onRcvBlock
  simp only
  obtain ⟨lz, hz, _⟩ := zmodemScan_effect text (List.range text.length)
    (List.foldl (fun m c => onRcvChar S c m)
      { bulkStart now (m.send (.notifySessionState .NOTIFYACTIVITY)) with
        decoder := (D.toUnicode
          (bulkStart now (m.send (.notifySessionState .NOTIFYACTIVITY))).decoder text).2 }
      (D.toUnicode
          (bulkStart now (m.send (.notifySessionState .NOTIFYACTIVITY))).decoder text).1)
  obtain ⟨a, b, _⟩ := foldl_onRcvChar_rest S
    (D.toUnicode (bulkStart now (m.send (.notifySessionState .NOTIFYACTIVITY))).decoder text).1
    ({ bulkStart now (m.send (.notifySessionState .NOTIFYACTIVITY)) with
        decoder := (D.toUnicode
          (bulkStart now (m.send (.notifySessionState .NOTIFYACTIVITY))).decoder text).2 }
      : TEmulation σ ι δ)
  rw [hz]
  simp only
  rw [a, b, bulkStart_eq, bulkStart_eq]
  exact ⟨rfl, rfl⟩

theorem timer1_onScr (m : TEmulation σ ι δ) (f : σ → σ) :
    (m.onScr f).bulk_timer1 = m.bulk_timer1 := (timers_setScreenAt m m.scr (f m.cur)).1

theorem timer2_onScr (m : TEmulation σ ι δ) (f : σ → σ) :
    (m.onScr f).bulk_timer2 = m.bulk_timer2 := (timers_setScreenAt m m.scr (f m.cur)).2

theorem onKeyPress_timers (S : TEScreen σ ι) (B : QStringBytes) (ev : QKeyEvent)
    (m : TEmulation σ ι δ) :
    (onKeyPress S B ev m).bulk_timer1 = m.bulk_timer1 ∧
    (onKeyPress S B ev m).bulk_timer2 = m.bulk_timer2 := by
  unfold onKeyPress
  simp only
  split_ifs <;> simp [TEmulation.send, timer1_onScr, timer2_onScr]

theorem setScreen_timers (S : TEScreen σ ι) (n : Int) (m : TEmulation σ ι δ) :
    (setScreen S n m).bulk_timer1 = m.bulk_timer1 ∧
    (setScreen S n m).bulk_timer2 = m.bulk_timer2 := by
  obtain ⟨s0, s1, sc, co, li, de, fp, t1, t2, out⟩ := m
  have hn : n % 2 = 0 ∨ n % 2 = 1 := by omega
  rcases hn with h | h <;> fin_cases sc <;>
    simp [setScreen, TEmulation.setScreenAt, h]

/-- Every event keeps the two timers paired. -/
theorem timersPaired_step (S : TEScreen σ ι) (D : QTextDecoder δ) (Q : QStringSearch)
    (B : QStringBytes) (now : Nat) (e : Event) (m : TEmulation σ ι δ) (h : TimersPaired m) :
    TimersPaired (step S D Q B now e m) := by
  cases e with
  | onRcvBlock text =>
    obtain ⟨a, b⟩ := onRcvBlock_timers S D now text m
    exact timersPaired_of_eq _ _ (timersPaired_bulkStart now m) a b
  | onHistoryCursorChange cursor =>
    show TimersPaired (onHistoryCursorChange S now cursor m)
    unfold onHistoryCursorChange
    split
    · exact h
    · exact timersPaired_bulkStart now _
  | onKeyPress ev =>
    exact timersPaired_of_eq m _ h (onKeyPress_timers S B ev m).1 (onKeyPress_timers S B ev m).2
  | onSelectionBegin x y columnmode =>
    show TimersPaired (onSelectionBegin S x y columnmode m)
    unfold onSelectionBegin
    split
    · exact h
    · exact timersPaired_showBulk S _
  | onSelectionExtend x y =>
    show TimersPaired (onSelectionExtend S x y m)
    unfold onSelectionExtend
    split
    · exact h
    · exact timersPaired_showBulk S _
  | clearSelection =>
    show TimersPaired (clearSelection S m)
    unfold clearSelection
    split
    · exact h
    · exact timersPaired_showBulk S _
  | setSelection preserve_line_breaks =>
    show TimersPaired (setSelection S preserve_line_breaks m)
    unfold setSelection
    split
    · exact h
    · split
      · exact timersPaired_of_eq m _ h rfl rfl
      · exact h
  | isBusySelecting busy =>
    show TimersPaired (isBusySelecting S busy m)
    unfold isBusySelecting
    split
    · exact h
    · exact timersPaired_of_eq m _ h (timer1_onScr _ _) (timer2_onScr _ _)
  | copySelection =>
    show TimersPaired (copySelection S m)
    unfold copySelection
    split
    · exact h
    · exact timersPaired_of_eq m _ h rfl rfl
  | setListenToKeyPress l => exact h
  | findTextBegin => exact h
  | findTextNext str forward caseSensitive regExp =>
    show TimersPaired (match findTextNext S Q str forward caseSensitive regExp m with
      | some r => r.em
      | none => m)
    cases hr : findTextNext S Q str forward caseSensitive regExp m with
    | none => exact h
    | some r =>
      simp only
      cases hf : r.found with
      | true =>
        obtain ⟨k, hem⟩ := findTextNext_found S Q str forward caseSensitive regExp m r hr hf
        rw [hem, findHit_eq]
        exact timersPaired_showBulk S _
      | false =>
        have hem : r.em = m := by
          cases forward with
          | true =>
            obtain ⟨r2, hr2, hcase⟩ := findForward_spec S Q str caseSensitive regExp m
              ((S.getHistLines m.cur + S.getLines m.cur - forwardStart m).toNat + 1)
              (forwardStart m) (Nat.lt_succ_self _)
            simp only [findTextNext, if_true] at hr
            rw [hr2] at hr
            cases hr
            rcases hcase with ⟨_, hem, _⟩ | ⟨_, _, _, _, _, hf2, _⟩
            · exact hem
            · rw [hf2] at hf; exact absurd hf (by decide)
          | false =>
            obtain ⟨r2, hr2, hcase⟩ := findBackward_spec S Q str caseSensitive regExp m
              ((backwardStart S m + 1).toNat + 1) (backwardStart S m) (Nat.lt_succ_self _)
            simp only [findTextNext, Bool.false_eq_true, if_false] at hr
            rw [hr2] at hr
            cases hr
            rcases hcase with ⟨_, hem, _⟩ | ⟨_, _, _, _, _, hf2, _⟩
            · exact hem
            · rw [hf2] at hf; exact absurd hf (by decide)
        rw [hem]; exact h
  | setScreen n =>
    exact timersPaired_of_eq m _ h (setScreen_timers S n m).1 (setScreen_timers S n m).2
  | setConnect c =>
    show TimersPaired (setConnect S c m)
    unfold setConnect
    simp only
    split
    · exact timersPaired_showBulk S _
    · exact timersPaired_of_eq m _ h rfl rfl
  | onImageSizeChange lines columns =>
    show TimersPaired (onImageSizeChange S lines columns m)
    unfold onImageSizeChange
    simp only
    split
    · exact timersPaired_of_eq m _ h rfl rfl
    · exact timersPaired_of_eq _ _ (timersPaired_showBulk S _) rfl rfl
  | timeout1 =>
    show TimersPaired (onTimeout S now m.bulk_timer1 m)
    unfold onTimeout
    split
    · split
      · exact timersPaired_showBulk S _
      · exact h
    · exact h
  | timeout2 =>
    show TimersPaired (onTimeout S now m.bulk_timer2 m)
    unfold onTimeout
    split
    · split
      · exact timersPaired_showBulk S _
      · exact h
    · exact h

theorem timersPaired_run (S : TEScreen σ ι) (D : QTextDecoder δ) (Q : QStringSearch)
    (B : QStringBytes) (es : List (Nat × Event)) (m : TEmulation σ ι δ) (h : TimersPaired m) :
    TimersPaired (run S D Q B es m) := by
  induction es generalizing m with
  | nil => exact h
  | cons p es ih => exact ih _ (timersPaired_step S D Q B p.1 p.2 m h)

/-- C23: in every state reached from the constructed mediator by any sequence
of events (blocks fed, history-cursor changes, key presses, the selection
slots, searches, screen switches, `setConnect`, geometry changes, and
`timeout()` of either timer), at whatever clock readings, the fast timer is
active exactly when the slow timer is; a state with the fast timer running
alone, or the slow timer running alone, is never reached. -/
theorem timers_paired_reachable (S : TEScreen σ ι) (D : QTextDecoder δ) (Q : QStringSearch)
    (B : QStringBytes) (s0 s1 : σ) (d : δ) (es : List (Nat × Event)) :
    TimersPaired (run S D Q B es (construct s0 s1 d)) ∧
    ((run S D Q B es (construct s0 s1 d)).bulk_timer1.isActive = true ↔
      (run S D Q B es (construct s0 s1 d)).bulk_timer2.isActive = true) ∧
    ¬ ((run S D Q B es (construct s0 s1 d)).bulk_timer1.isActive = true ∧
       (run S D Q B es (construct s0 s1 d)).bulk_timer2.isActive = false) := by
  have h : TimersPaired (run S D Q B es (construct s0 s1 d)) :=
    timersPaired_run S D Q B es (construct s0 s1 d) rfl
  refine ⟨h, ?_, ?_⟩
  · unfold TimersPaired at h
    rw [h]
  · unfold TimersPaired at h
    rw [h]
    intro ⟨a, b⟩
    rw [a] at b
    exact absurd b (by decide)

end Reachable

end Konsole
